import Mathlib

/-!
Verification of the download-queue core of `mp3me.py` (a music download
manager).  The Python source is shallowly embedded: strings are `String`
(handled as `List Char` where character-level reasoning is needed), the
download queue is an association list keyed by entry id, and every
external effect (filesystem listing, metadata resolver, subprocess
fetcher) is passed in as explicit data.  All definitions are executable.
-/

namespace MP3Me

/-! ### Character-list utilities mirroring Python string primitives -/

/-- Python `str.replace(old, new)` for a single-character `old` replaced by a
single-character `new`, as a map over the characters. -/
def replaceChar (old new : Char) (l : List Char) : List Char :=
  l.map (fun c => if c = old then new else c)

/-- Membership of a character in a character class, as a Bool. -/
def charIn (cs : List Char) (c : Char) : Bool := cs.contains c

/-- Python `str.strip(chars)`: drop characters of the class from both ends. -/
def stripClass (cs : List Char) (l : List Char) : List Char :=
  ((l.dropWhile (charIn cs)).reverse.dropWhile (charIn cs)).reverse

/-- Does the list contain two adjacent spaces (Python `'  ' in s`)? -/
def hasDoubleSpace : List Char → Bool
  | [] => false
  | [_] => false
  | c1 :: c2 :: rest => (c1 = ' ' && c2 = ' ') || hasDoubleSpace (c2 :: rest)

/-- Python `s.replace('  ', ' ')`: replace non-overlapping double spaces,
scanning left to right. -/
def replacePairs : List Char → List Char
  | [] => []
  | [c] => [c]
  | c1 :: c2 :: rest =>
    if c1 = ' ' && c2 = ' ' then ' ' :: replacePairs rest
    else c1 :: replacePairs (c2 :: rest)

/-- The `while '  ' in filename:` loop of `sanitize_filename`, run with
explicit fuel; fuel `l.length` always suffices because every iteration
strictly shortens the list. -/
def collapseSpacesAux : Nat → List Char → List Char
  | 0, l => l
  | fuel + 1, l =>
    if hasDoubleSpace l then collapseSpacesAux fuel (replacePairs l) else l

def collapseSpaces (l : List Char) : List Char :=
  collapseSpacesAux l.length l

/-! ### sanitize_filename (mp3me.py lines 4019-4040) -/

/-- The invalid character class `<>:"/\|?*` of `sanitize_filename`. -/
def invalidChars : List Char := ['<', '>', ':', '"', '/', '\\', '|', '?', '*']

/-- Replace every invalid character by an underscore (the `for char in
invalid_chars: filename = filename.replace(char, '_')` loop; the single-char
replacements are independent, so the sequential loop equals one map). -/
def replaceInvalid (l : List Char) : List Char :=
  l.map (fun c => if charIn invalidChars c then '_' else c)

/-- `sanitize_filename` from mp3me.py: replace invalid characters with `_`,
strip leading/trailing dots and spaces, collapse runs of spaces, and fall
back to "Unknown" when the input or the result is empty. -/
def sanitize_filename (s : String) : String :=
  if s = "" then "Unknown"
  else
    let l := collapseSpaces (stripClass ['.', ' '] (replaceInvalid s.data))
    if l = [] then "Unknown" else String.mk l

/-! ### More Python string primitives, for the duplicate matcher -/

/-- Python `str.lower()` (ASCII, which covers every string this code builds). -/
def lowerChars (l : List Char) : List Char := l.map Char.toLower

/-- Python `str.strip()` with no arguments: trim whitespace at both ends. -/
def stripWs (l : List Char) : List Char :=
  ((l.dropWhile Char.isWhitespace).reverse.dropWhile Char.isWhitespace).reverse

/-- Is the first list a prefix of the second? -/
def listIsPref : List Char → List Char → Bool
  | [], _ => true
  | _ :: _, [] => false
  | a :: as, b :: bs => a = b && listIsPref as bs

/-- Is the first list a suffix of the second (Python `str.endswith`)? -/
def listIsSuffix (suf l : List Char) : Bool := listIsPref suf.reverse l.reverse

/-- Python `sub in s`: does `l` contain `sub` as a contiguous substring? -/
def containsSub (sub : List Char) : List Char → Bool
  | [] => listIsPref sub []
  | c :: rest => listIsPref sub (c :: rest) || containsSub sub rest

/-- Python `s.replace(sub, rep)` for a non-empty `sub`: replace non-overlapping
occurrences left to right.  Fuel-driven; fuel `l.length` suffices because each
step consumes at least one character of `l` when `sub` is non-empty. -/
def replaceSubAux (sub rep : List Char) : Nat → List Char → List Char
  | _, [] => []
  | 0, l => l
  | fuel + 1, c :: rest =>
    if listIsPref sub (c :: rest) then
      rep ++ replaceSubAux sub rep fuel ((c :: rest).drop sub.length)
    else c :: replaceSubAux sub rep fuel rest

def replaceSubStr (sub rep l : List Char) : List Char :=
  replaceSubAux sub rep l.length l

/-- Python `str.split()` with no arguments: split on runs of whitespace,
discarding empty pieces. -/
def splitWsAux : List Char → List Char → List (List Char)
  | [], acc => if acc.isEmpty then [] else [acc.reverse]
  | c :: rest, acc =>
    if c.isWhitespace then
      if acc.isEmpty then splitWsAux rest [] else acc.reverse :: splitWsAux rest []
    else splitWsAux rest (c :: acc)

def splitWs (l : List Char) : List (List Char) := splitWsAux l []

/-! ### Data model (mp3me.py lines 277-374) -/

inductive ContentType where
  | SONG | ALBUM | ARTIST | PLAYLIST | SINGLE | RELEASE
deriving DecidableEq, Repr

def ContentType.value : ContentType → String
  | .SONG => "song"
  | .ALBUM => "album"
  | .ARTIST => "artist"
  | .PLAYLIST => "playlist"
  | .SINGLE => "single"
  | .RELEASE => "release"

structure Song where
  id : String
  title : String
  thumbnailUrl : String
  url : String
  artist : String := ""
  album : String := ""
  duration : String := ""
  trackNumber : Nat := 0
  year : String := ""
  genre : String := ""
  videoId : String := ""
  previewUrl : String := ""
  selected : Bool := true
deriving DecidableEq, Repr

structure Release where
  id : String
  title : String
  thumbnailUrl : String
  url : String
  artist : String := ""
  year : String := ""
  trackCount : Nat := 0
  songs : List Song := []
  releaseType : String := "album"
  genre : String := ""
deriving DecidableEq, Repr

structure Artist where
  id : String
  title : String
  thumbnailUrl : String
  url : String
  releases : List Release := []
deriving DecidableEq, Repr

/-- The `Union[Song, Release, Artist]` stored in a queue entry, as a closed
tagged union.  A release-like item keeps its `ContentType` tag because the
Python code distinguishes ALBUM/RELEASE/SINGLE only in the entry id string. -/
inductive Item where
  | song (s : Song)
  | release (ctype : ContentType) (r : Release)
  | artist (a : Artist)
deriving DecidableEq, Repr

def Item.ctypeOf : Item → ContentType
  | .song _ => .SONG
  | .release ct _ => ct
  | .artist _ => .ARTIST

def Item.idOf : Item → String
  | .song s => s.id
  | .release _ r => r.id
  | .artist a => a.id

inductive DownloadStatus where
  | QUEUED | DOWNLOADING | PROCESSING | COMPLETED | FAILED | CANCELLED | PENDING
deriving DecidableEq, Repr

/-- `DownloadItem` (mp3me.py lines 359-374).  `progress` is the Python float,
modelled as a rational. -/
structure DownloadItem where
  item : Item
  status : DownloadStatus := .QUEUED
  progress : ℚ := 0
  errorMessage : String := ""
  outputPath : String := ""
  format : String := "mp3"
  currentSong : Option Song := none
  totalSongs : Nat := 1
  completedSongs : Nat := 0
  quality : String := "high"
deriving DecidableEq, Repr

/-- The slice of `Settings` the download manager reads. -/
structure Settings where
  threads : Nat := 3
  format : String := "mp3"
  audioQuality : String := "high"
  autoRename : Bool := true
  useAlbumFolders : Bool := true
  checkDuplicates : Bool := true
  downloadDir : String := "Music"
deriving DecidableEq, Repr

/-- Qt signals emitted by the manager, recorded as events. -/
inductive Event where
  | statusChanged (id : String) (st : DownloadStatus) (msg : String)
  | progress (id : String) (pct : ℚ) (msg : String)
  | metadataFetched (id : String)
deriving DecidableEq, Repr

/-! ### Duplicate matcher `_check_file_exists` (mp3me.py lines 1138-1200) -/

/-- The punctuation characters replaced by spaces in the matcher. -/
def punctChars : List Char :=
  ['(', ')', '[', ']', '{', '}', '-', '_', '.', ',', '\'', '"']

/-- The fixed stop-word list of the matcher. -/
def stopWords : List (List Char) :=
  ["official", "video", "audio", "lyrics", "ft", "feat", "remix", "version"].map
    String.data

/-- The `for char in [...]` loop replacing punctuation by spaces. -/
def replacePunct (l : List Char) : List Char :=
  punctChars.foldl (fun acc c => replaceChar c ' ' acc) l

/-- The `for word in [...]` loop: for each stop word `w`, replace `" w "` then
`" w."` by a single space (string replacement, exactly as the source does). -/
def removeStops (l : List Char) : List Char :=
  stopWords.foldl
    (fun acc w =>
      replaceSubStr ((' ' :: w) ++ ['.']) [' ']
        (replaceSubStr ((' ' :: w) ++ [' ']) [' '] acc))
    l

/-- Words of length > 1 (`[w for w in s.split() if len(w) > 1]`). -/
def cleanWords (l : List Char) : List (List Char) :=
  (splitWs l).filter (fun w => w.length > 1)

/-- `title_words`: lowercase, strip, punctuation to spaces, stop words
removed, split, short tokens dropped. -/
def titleWords (t : String) : List (List Char) :=
  cleanWords (removeStops (replacePunct (stripWs (lowerChars t.data))))

/-- `artist_words`: same pipeline but — exactly as in the source — without
the stop-word removal step. -/
def artistWords (a : String) : List (List Char) :=
  cleanWords (replacePunct (stripWs (lowerChars a.data)))

/-- The per-file body of the scan loop: extension check, normalization of the
candidate filename, and the all-tokens-are-substrings test. -/
def fileMatches (tw aw : List (List Char)) (ext : List Char) (filename : String) :
    Bool :=
  let lf := lowerChars filename.data
  if listIsSuffix ext lf then
    let f0 := stripWs lf
    let f1 := f0.take (f0.length - ext.length)
    let f2 := removeStops (replacePunct f1)
    tw.all (fun w => containsSub w f2) && aw.all (fun w => containsSub w f2)
  else false

/-- `_check_file_exists`: `files` is the directory listing (`os.listdir`
abstracted as input data).  Returns true iff some file matches. -/
def checkFileExists (checkDup : Bool) (song : Song) (files : List String)
    (fmt : String) : Bool :=
  if !checkDup then false
  else if song.title = "" || song.artist = "" then false
  else
    let ext := '.' :: lowerChars fmt.data
    let tw := titleWords song.title
    let aw := artistWords song.artist
    files.any (fun f => fileMatches tw aw ext f)

/-- Modelled from the spec (claim C6's wording), for comparison with
`checkFileExists`: both the title and the artist are normalized by removing
punctuation AND the stop-word list, tokenized on whitespace with tokens of
length ≤ 1 dropped, and a candidate is a duplicate iff every remaining title
token and every remaining artist token is a substring of the normalized
candidate filename. -/
def claimTokens (s : String) : List (List Char) :=
  ((splitWs (replacePunct (stripWs (lowerChars s.data)))).filter
      (fun w => !(stopWords.contains w))).filter (fun w => w.length > 1)

def claimNormFile (ext : List Char) (filename : String) : List Char :=
  let lf := lowerChars filename.data
  let f0 := stripWs lf
  let f1 := f0.take (f0.length - ext.length)
  String.data (String.intercalate " "
    (((splitWs (replacePunct f1)).filter (fun w => !(stopWords.contains w))).map
      String.mk))

def checkFileExistsClaim (title artist : String) (files : List String)
    (fmt : String) : Bool :=
  let ext := '.' :: lowerChars fmt.data
  files.any (fun f =>
    listIsSuffix ext (lowerChars f.data) &&
    ((claimTokens title).all (fun w => containsSub w (claimNormFile ext f)) &&
      (claimTokens artist).all (fun w => containsSub w (claimNormFile ext f))))

/-! ### The download manager's shared state (mp3me.py lines 595-620)

The Python queue is a dict keyed by entry id; it is modelled as an
insertion-ordered association list.  `active_downloads` (a Python set) is a
duplicate-free list of ids. -/

structure DM where
  queue : List (String × DownloadItem) := []
  active : List String := []
  settings : Settings := {}
deriving DecidableEq, Repr

def qLookup : List (String × DownloadItem) → String → Option DownloadItem
  | [], _ => none
  | p :: rest, id => if p.1 = id then some p.2 else qLookup rest id

def qContains (q : List (String × DownloadItem)) (id : String) : Bool :=
  (qLookup q id).isSome

/-- Python `self.download_queue[id].field = v` under an `if id in queue`
guard: update in place, no-op when the key is absent. -/
def qUpdate : List (String × DownloadItem) → String → (DownloadItem → DownloadItem) →
    List (String × DownloadItem)
  | [], _, _ => []
  | p :: rest, id, f =>
    (if p.1 = id then (p.1, f p.2) else p) :: qUpdate rest id f

/-- Python dict assignment `queue[id] = v`: overwrite in place if present,
append otherwise. -/
def qAssign (q : List (String × DownloadItem)) (id : String) (v : DownloadItem) :
    List (String × DownloadItem) :=
  if qContains q id then qUpdate q id (fun _ => v) else q ++ [(id, v)]

/-- Python `queue.pop(id)`. -/
def qPop : List (String × DownloadItem) → String → List (String × DownloadItem)
  | [], _ => []
  | p :: rest, id => if p.1 = id then qPop rest id else p :: qPop rest id

def qKeys (q : List (String × DownloadItem)) : List String := q.map Prod.fst

def entryStatus (dm : DM) (id : String) : Option DownloadStatus :=
  (qLookup dm.queue id).map DownloadItem.status

/-! ### add_to_queue (mp3me.py lines 622-668) -/

/-- The collection kinds of the `item.type in [ARTIST, ALBUM, RELEASE,
SINGLE]` membership tests. -/
def isCollectionType (ct : ContentType) : Bool :=
  ct = .ARTIST || ct = .ALBUM || ct = .RELEASE || ct = .SINGLE

/-- `add_to_queue`: build the entry, decide QUEUED vs PENDING, compute
`total_songs`, insert, and emit one status event.  `timestamp` stands for
`int(time.time())`. -/
def addToQueue (dm : DM) (item : Item) (fmtArg qualArg : Option String)
    (timestamp : Nat) : DM × String × List Event :=
  let fmt := fmtArg.getD dm.settings.format
  let qual := qualArg.getD dm.settings.audioQuality
  let id := item.ctypeOf.value ++ "_" ++ item.idOf ++ "_" ++ toString timestamp
  let hasSongs : Bool :=
    match item with
    | .song _ => false
    | .release _ r => !r.songs.isEmpty
    | .artist a => !a.releases.isEmpty && a.releases.any (fun r => !r.songs.isEmpty)
  let st : DownloadStatus :=
    if isCollectionType item.ctypeOf && !hasSongs then .PENDING else .QUEUED
  let total : Nat :=
    match item with
    | .song _ => 1
    | .release ct r =>
      if (ct = .ALBUM || ct = .RELEASE || ct = .SINGLE) && !r.songs.isEmpty then
        let sel := r.songs.filter (fun s => s.selected)
        if sel.isEmpty then r.songs.length else sel.length
      else 1
    | .artist a =>
      if !a.releases.isEmpty then
        (a.releases.map (fun r => if r.songs.isEmpty then 1 else r.songs.length)).sum
      else 1
  let d : DownloadItem :=
    { item := item, status := st, format := fmt, quality := qual, totalSongs := total }
  ({ dm with queue := qAssign dm.queue id d }, id, [Event.statusChanged id st ""])

/-! ### cancel_download (mp3me.py lines 670-680) -/

def cancelDownload (dm : DM) (id : String) : DM × List Event :=
  if qContains dm.queue id then
    if dm.active.contains id then
      ({ dm with queue := qUpdate dm.queue id (fun d => { d with status := .CANCELLED }) },
        [])
    else
      ({ dm with queue := qPop dm.queue id },
        [Event.statusChanged id .CANCELLED ""])
  else (dm, [])

/-! ### The dispatch loop body (mp3me.py lines 698-732) -/

/-- The `for download_id, item in self.download_queue.items():` admission
loop, run with `available_slots` fixed at entry.  Accumulates the updated
active set and the list of admitted ids (`next_downloads`). -/
def admitLoop (avail : Int) :
    List (String × DownloadItem) → List String → List String →
    List String × List String
  | [], active, nxt => (active, nxt)
  | (id, it) :: rest, active, nxt =>
    if it.status = .QUEUED && !(active.contains id) && ((nxt.length : Int) < avail) then
      admitLoop avail rest (active ++ [id]) (nxt ++ [id])
    else
      admitLoop avail rest active nxt

/-- One pass of the dispatch loop's locked section: compute the free slots
and admit QUEUED, not-already-active entries while slots remain.  (The
PENDING branch of the same loop submits a metadata fetch to the thread pool
and mutates no manager state; it is not modelled here.) -/
def dispatchSelect (dm : DM) : DM × List String :=
  let avail : Int := (dm.settings.threads : Int) - (dm.active.length : Int)
  if 0 < avail then
    let r := admitLoop avail dm.queue dm.active []
    ({ dm with active := r.1 }, r.2)
  else (dm, [])

/-- `_start_download` (mp3me.py lines 817-828): an unguarded dict access —
`KeyError` (modelled as `Except.error`) if the id has left the queue —
then status to DOWNLOADING and one status event. -/
def startDownload (dm : DM) (id : String) : Except String (DM × List Event) :=
  match qLookup dm.queue id with
  | none => .error ("KeyError: " ++ id)
  | some _ =>
    .ok ({ dm with queue := qUpdate dm.queue id (fun d => { d with status := .DOWNLOADING }) },
      [Event.statusChanged id .DOWNLOADING ""])

/-- The `for download_id in next_downloads: self._start_download(...)` loop
after the lock is released. -/
def startAll : DM → List String → Except String (DM × List Event)
  | dm, [] => .ok (dm, [])
  | dm, id :: rest => do
    let r ← startDownload dm id
    let r2 ← startAll r.1 rest
    .ok (r2.1, r.2 ++ r2.2)

/-- Operations other threads may interleave between the locked admission
section and the `_start_download` calls: the public mutators of the queue
(`cancel_download`, `add_to_queue`). -/
inductive InterfOp where
  | cancel (id : String)
  | enqueue (item : Item) (fmtArg qualArg : Option String) (timestamp : Nat)

def applyInterf (dm : DM) : InterfOp → DM
  | .cancel id => (cancelDownload dm id).1
  | .enqueue it f q ts => (addToQueue dm it f q ts).1

/-- One full dispatch-loop iteration: locked admission, then arbitrary
interference from other threads, then the `_start_download` calls. -/
def dispatchIter (dm : DM) (ops : List InterfOp) :
    Except String (DM × List String × List Event) :=
  let r := dispatchSelect dm
  let dm2 := ops.foldl applyInterf r.1
  match startAll dm2 r.2 with
  | .ok s => .ok (s.1, r.2, s.2)
  | .error e => .error e

/-- `_download_thread`'s `finally:` block (mp3me.py lines 854-858): remove
the id from the active set. -/
def threadFinish (dm : DM) (id : String) : DM :=
  if dm.active.contains id then { dm with active := dm.active.erase id } else dm

/-- `_download_thread`'s `except:` / `finally:` structure (mp3me.py lines
830-858): the body's outcome is passed in as data — the state the body
reached, the events it emitted, and the exception it raised, if any (state
mutations made before a raise persist, so the error case keeps the reached
state).  An exception is converted into a FAILED entry (when still present)
plus a status event, and the id always leaves the active set. -/
def downloadThread (id : String) (bodyState : DM) (bodyEvents : List Event)
    (bodyErr : Option String) : DM × List Event :=
  match bodyErr with
  | none => (threadFinish bodyState id, bodyEvents)
  | some e =>
    if qContains bodyState.queue id then
      (threadFinish
        { bodyState with queue := qUpdate bodyState.queue id (fun d => { d with status := .FAILED, errorMessage := e }) } id,
        bodyEvents ++ [Event.statusChanged id .FAILED e])
    else (threadFinish bodyState id, bodyEvents)

/-- The invariant of claim C3: `|ActiveSet| ≤ thread count` and every active
id is a key of the queue (`active` is duplicate-free, being a Python set). -/
def dmInv (dm : DM) : Prop :=
  dm.active.Nodup ∧ dm.active.length ≤ dm.settings.threads ∧
    ∀ id ∈ dm.active, qContains dm.queue id = true

/-! ### Song leaf download `_download_song` (mp3me.py lines 860-1136)

External effects appear as data: `fs` is the set of paths for which
`os.path.exists` is true, `listing` is the `os.listdir` of the output
directory, `betterArt` is the best-effort `fetch_better_release_artwork`
result (`none` when it raised or returned nothing), and `FetchRes` is the
outcome of the yt-dlp subprocess.  Exceptions raised partway keep the state
reached so far, so results carry `(state, events, err)` rather than an
`Except`.  The incremental percent lines of the subprocess are not modelled;
`cancelledMid` abstracts the interleaving where `cancel_download` set
CANCELLED during the subprocess loop and the process was terminated. -/

inductive FetchRes where
  | produced
  | failedFetch (msg : String)
  | cancelledMid
deriving DecidableEq, Repr

structure SongRes where
  dm : DM
  events : List Event
  result : Option String
  fetched : Bool
  err : Option String
deriving Repr

def pathJoin (a b : String) : String := a ++ "/" ++ b

/-- Python `f"{n:02d}"` for the track number. -/
def pad2 (n : Nat) : String := if n < 10 then "0" ++ toString n else toString n

/-- The output path `_download_song` computes from settings and tags. -/
def songOutputDir (settings : Settings) (song : Song) : String :=
  if settings.useAlbumFolders && !(song.artist = "") && !(song.album = "") then
    pathJoin (pathJoin settings.downloadDir (sanitize_filename song.artist))
      (sanitize_filename song.album)
  else if settings.useAlbumFolders && !(song.artist = "") then
    pathJoin (pathJoin settings.downloadDir (sanitize_filename song.artist)) "Singles"
  else pathJoin settings.downloadDir "Singles"

def songOutputPath (settings : Settings) (song : Song) (fmt : String) : String :=
  let trackNum := if song.trackNumber = 0 then 1 else song.trackNumber
  let base :=
    if settings.autoRename then
      sanitize_filename song.artist ++ " - " ++ sanitize_filename song.title
    else
      (if !(trackNum = 0) then pad2 trackNum ++ " - " else "") ++
        sanitize_filename song.title
  pathJoin (songOutputDir settings song) (base ++ "." ++ fmt)

/-- The "file already exists / duplicate" completion block (mp3me.py lines
923-941) and the final completion block (lines 1111-1134) share this shape:
bump `completed_songs`, then either complete a single track or recompute the
collection progress. -/
def songCompleteEntry (dm : DM) (id : String) (song : Song) (doneMsg : String) :
    DM × List Event :=
  match qLookup dm.queue id with
  | none => (dm, [])
  | some d =>
    let completed := d.completedSongs + 1
    if d.item.ctypeOf = .SONG then
      ({ dm with queue := qUpdate dm.queue id (fun d' => { d' with completedSongs := d'.completedSongs + 1, progress := 100, status := .COMPLETED }) },
        [Event.statusChanged id .COMPLETED "",
         Event.progress id 100 (doneMsg ++ song.title)])
    else
      let pv : ℚ :=
        if !(d.totalSongs = 0) then ((completed : ℚ) / (d.totalSongs : ℚ)) * 100 else 0
      ({ dm with queue := qUpdate dm.queue id (fun d' => { d' with completedSongs := d'.completedSongs + 1, progress := pv }) },
        [Event.progress id pv (doneMsg ++ song.title)])

/-- The source's URL validation/repair step (lines 862-867), assuming the
raise was ruled out. -/
def songUrlFixed (song : Song) : Song :=
  if song.url = "" || containsSub ("watch?v=song_".data) song.url.data then
    { song with url := "https://music.youtube.com/watch?v=" ++ song.videoId }
  else song

/-- The best-effort artwork upgrade (lines 869-876). -/
def songThumbFixed (betterArt : Option String) (song : Song) : Song :=
  if song.thumbnailUrl = "" ||
      containsSub ("googleusercontent".data) song.thumbnailUrl.data then
    match betterArt with
    | some b => if !(b = "") then { song with thumbnailUrl := b } else song
    | none => song
  else song

/-- `_download_song` from the existence/duplicate check onwards (lines
918-1136), with the output path and the duplicate-check verdict already
computed. -/
def downloadSongTail (dm : DM) (id : String) (song : Song) (fs : List String)
    (outputPath : String) (dupFound : Bool) (fetchRes : FetchRes) : SongRes :=
  if dupFound || fs.contains outputPath then
    let r := songCompleteEntry dm id song "Already exists: "
    ⟨r.1, r.2, some outputPath, false, none⟩
  else if entryStatus dm id = some .CANCELLED then
    ⟨dm, [Event.statusChanged id .CANCELLED ""], none, false, none⟩
  else
    match fetchRes with
    | .cancelledMid =>
      ⟨dm, [Event.statusChanged id .CANCELLED ""], none, true, none⟩
    | .failedFetch msg =>
      ⟨dm, [], none, true, some ("Download failed: " ++ msg)⟩
    | .produced =>
      let procStep : DM × List Event :=
        if qContains dm.queue id then
          ({ dm with queue := qUpdate dm.queue id (fun d => { d with status := .PROCESSING }) },
            [Event.statusChanged id .PROCESSING ""])
        else (dm, [])
      let r := songCompleteEntry procStep.1 id song "Completed: "
      ⟨r.1, procStep.2 ++ r.2, some outputPath, true, none⟩

def downloadSong (dm : DM) (id : String) (song : Song) (fmt : String)
    (fs listing : List String) (betterArt : Option String) (fetchRes : FetchRes) :
    SongRes :=
  if (song.url = "" || containsSub ("watch?v=song_".data) song.url.data) &&
      song.videoId = "" then
    ⟨dm, [], none, false, some ("Invalid YouTube URL for " ++ song.title)⟩
  else
    let song := songThumbFixed betterArt (songUrlFixed song)
    let dm := { dm with queue := qUpdate dm.queue id (fun d => { d with currentSong := some song }) }
    let outputPath := songOutputPath dm.settings song fmt
    let dm := { dm with queue := qUpdate dm.queue id (fun d => { d with outputPath := outputPath }) }
    let dupFound :=
      if dm.settings.checkDuplicates then
        checkFileExists dm.settings.checkDuplicates song listing fmt
      else false
    downloadSongTail dm id song fs outputPath dupFound fetchRes

/-- The cancellation checkpoint inside the subprocess output loop (mp3me.py
lines 1039-1045): returns whether the flag is observed — in which case the
external process is terminated and the song returns None — plus the event
emitted. -/
def fetchCancelCheckpoint (dm : DM) (id : String) : Bool × List Event :=
  if entryStatus dm id = some .CANCELLED then
    (true, [Event.statusChanged id .CANCELLED ""])
  else (false, [])

/-! ### Release download `_download_release` (mp3me.py lines 1202-1334)

The per-song futures submitted to `song_executor` are modelled as running
sequentially at their submission point; the final counters and the
aggregation are unaffected by the interleaving order, which the claims do
not mention. -/

structure RelRes where
  dm : DM
  events : List Event
  submitted : List Song
  successCount : Nat
  errors : List String
  cancelled : Bool
  err : Option String
deriving Repr

/-- The `for song in selected_songs:` submission loop (lines 1270-1317),
collecting each future's result at its submission point. -/
def releaseLoop (id : String) (rel : Release) (fmt : String)
    (fs listing : List String) (betterArt : Option String)
    (fetchFor : Song → FetchRes) : DM → List Song → RelRes
  | dm, [] => ⟨dm, [], [], 0, [], false, none⟩
  | dm, song0 :: rest =>
    if entryStatus dm id = some .CANCELLED then
      ⟨dm, [Event.statusChanged id .CANCELLED ""], [], 0, [], true, none⟩
    else
      let song := { song0 with
        album := if song0.album = "" then rel.title else song0.album,
        artist := if song0.artist = "" then rel.artist else song0.artist,
        year := if song0.year = "" then rel.year else song0.year }
      if containsSub ("watch?v=song_".data) song.url.data && song.videoId = "" then
        releaseLoop id rel fmt fs listing betterArt fetchFor dm rest
      else
        let song :=
          if containsSub ("watch?v=song_".data) song.url.data then
            { song with url := "https://music.youtube.com/watch?v=" ++ song.videoId }
          else song
        let step : DM × List Event :=
          match qLookup dm.queue id with
          | some d =>
            let overall : ℚ :=
              if 0 < d.totalSongs then
                ((d.completedSongs : ℚ) / (d.totalSongs : ℚ)) * 100
              else 0
            ({ dm with queue := qUpdate dm.queue id (fun d' => { d' with currentSong := some song }) },
              [Event.progress id overall
                ("Downloading " ++ toString (d.completedSongs + 1) ++ "/" ++
                  toString d.totalSongs ++ ": " ++ song.title)])
          | none => (dm, [])
        let sr := downloadSong step.1 id song fmt fs listing betterArt (fetchFor song)
        match sr.err with
        | none =>
          let acc := releaseLoop id rel fmt fs listing betterArt fetchFor sr.dm rest
          ⟨acc.dm, step.2 ++ sr.events ++ acc.events, song0 :: acc.submitted,
            (if sr.result.isSome then 1 else 0) + acc.successCount, acc.errors,
            acc.cancelled, acc.err⟩
        | some e =>
          let acc := releaseLoop id rel fmt fs listing betterArt fetchFor sr.dm rest
          ⟨acc.dm, step.2 ++ sr.events ++ acc.events, song0 :: acc.submitted,
            acc.successCount,
            ("Error downloading " ++ song.title ++ ": " ++ e) :: acc.errors,
            acc.cancelled, acc.err⟩

/-- The result aggregation of `_download_release` (lines 1319-1334): FAILED
with the joined error messages iff zero songs succeeded, otherwise COMPLETED
with the partial-success message. -/
def releaseFinalize (dm : DM) (id : String) (relTitle : String) (selLen : Nat)
    (succ : Nat) (errs : List String) : DM × List Event :=
  match qLookup dm.queue id with
  | none => (dm, [])
  | some _ =>
    if succ = 0 then
      ({ dm with queue := qUpdate dm.queue id (fun d => { d with status := .FAILED, errorMessage := String.intercalate "\n" errs }) },
        [Event.statusChanged id .FAILED ("Failed to download release: " ++ relTitle)])
    else
      ({ dm with queue := qUpdate dm.queue id (fun d => { d with status := .COMPLETED }) },
        [Event.statusChanged id .COMPLETED
          ("Downloaded " ++ toString succ ++ "/" ++ toString selLen ++ " songs")])

/-- `fetch_release_details` abstracted: `Except.error` when the call raised,
`.ok none` when it returned a falsy result or one without a `songs` key,
`.ok (some (songs, year))` otherwise. -/
def downloadRelease (dm : DM) (id : String) (rel : Release) (fmt : String)
    (resolveRel : Release → Except String (Option (List Song × String)))
    (fs listing : List String) (betterArt : Option String)
    (fetchFor : Song → FetchRes) : RelRes :=
  let outputDir := pathJoin (pathJoin dm.settings.downloadDir
    (sanitize_filename rel.artist)) (sanitize_filename rel.title)
  let dm := { dm with queue := qUpdate dm.queue id (fun d => { d with outputPath := outputDir }) }
  let resolved : Except String (DM × Release) :=
    if rel.songs.isEmpty then
      match resolveRel rel with
      | .error e => .error ("Failed to fetch release details: " ++ e)
      | .ok none =>
        .error "Failed to fetch release details: No songs found in release details"
      | .ok (some (songs, _)) =>
        let relThumb :=
          match betterArt with
          | some b => if !(b = "") then b else rel.thumbnailUrl
          | none => rel.thumbnailUrl
        let songs := songs.map
          (fun s => { s with selected := true, thumbnailUrl := relThumb })
        let rel := { rel with thumbnailUrl := relThumb, songs := songs }
        .ok ({ dm with queue := qUpdate dm.queue id (fun d => { d with totalSongs := songs.length }) }, rel)
    else .ok (dm, rel)
  match resolved with
  | .error e => ⟨dm, [], [], 0, [], false, some e⟩
  | .ok (dm, rel) =>
    if rel.songs.isEmpty then
      ⟨dm, [], [], 0, [], false, some ("No songs found in release: " ++ rel.title)⟩
    else
      let sel0 := rel.songs.filter (fun s => s.selected)
      let sel := if sel0.isEmpty then rel.songs else sel0
      let acc := releaseLoop id rel fmt fs listing betterArt fetchFor dm sel
      if acc.cancelled then acc
      else
        let fin := releaseFinalize acc.dm id rel.title sel.length acc.successCount
          acc.errors
        { acc with dm := fin.1, events := acc.events ++ fin.2 }

/-! ### Artist download `_download_artist` (mp3me.py lines 1336-1447) -/

structure ArtRes where
  dm : DM
  events : List Event
  successCount : Nat
  failed : List String
  cancelled : Bool
  err : Option String
deriving Repr

/-- The per-release song resolution of the artist metadata block (lines
1363-1384): releases that already have songs count them; otherwise the
resolver is tried, a raising resolver contributes the 10-song estimate, and
a successful result without songs contributes nothing. -/
def resolveArtistReleases
    (resolveRel : Release → Except String (Option (List Song × String))) :
    List Release → List Release × Nat
  | [] => ([], 0)
  | r :: rest =>
    let acc := resolveArtistReleases resolveRel rest
    if !r.songs.isEmpty then (r :: acc.1, r.songs.length + acc.2)
    else
      match resolveRel r with
      | .ok (some (songs, yr)) =>
        ({ r with songs := songs.map (fun s => { s with selected := true }),
                  year := yr, trackCount := songs.length } :: acc.1,
          songs.length + acc.2)
      | .ok none => (r :: acc.1, acc.2)
      | .error _ => (r :: acc.1, 10 + acc.2)

/-- The aggregation of `_download_artist` (lines 1432-1447). -/
def artistFinalize (dm : DM) (id : String) (artTitle : String) (relCount : Nat)
    (succ : Nat) (failed : List String) : DM × List Event :=
  match qLookup dm.queue id with
  | none => (dm, [])
  | some _ =>
    if succ = 0 then
      ({ dm with queue := qUpdate dm.queue id (fun d => { d with status := .FAILED, errorMessage := String.intercalate "\n" failed }) },
        [Event.statusChanged id .FAILED
          ("Failed to download any releases for: " ++ artTitle)])
    else
      ({ dm with queue := qUpdate dm.queue id (fun d => { d with status := .COMPLETED }) },
        [Event.statusChanged id .COMPLETED
          ("Downloaded " ++ toString succ ++ "/" ++ toString relCount ++ " releases")])

/-- The `for release in artist.releases:` loop (lines 1403-1430): strictly
sequential, a failed release recorded and skipped, cancellation checked
before each release. -/
def artistLoop (id : String) (fmt : String) (n : Nat)
    (resolveRel : Release → Except String (Option (List Song × String)))
    (fs listing : List String) (betterArt : Option String)
    (fetchFor : Song → FetchRes) : DM → Nat → List Release → ArtRes
  | dm, succ, [] => ⟨dm, [], succ, [], false, none⟩
  | dm, succ, r :: rest =>
    if entryStatus dm id = some .CANCELLED then
      ⟨dm, [Event.statusChanged id .CANCELLED ""], succ, [], true, none⟩
    else
      let ev0 : List Event :=
        match qLookup dm.queue id with
        | some d =>
          let overall : ℚ :=
            if 0 < d.totalSongs then
              ((d.completedSongs : ℚ) / (d.totalSongs : ℚ)) * 100
            else 0
          [Event.progress id overall
            ("Downloading release " ++ toString (succ + 1) ++ "/" ++ toString n ++
              ": " ++ r.title)]
        | none => []
      let rr := downloadRelease dm id r fmt resolveRel fs listing betterArt fetchFor
      match rr.err with
      | none =>
        let acc := artistLoop id fmt n resolveRel fs listing betterArt fetchFor
          rr.dm (succ + 1) rest
        ⟨acc.dm, ev0 ++ rr.events ++ acc.events, acc.successCount,
          acc.failed, acc.cancelled, acc.err⟩
      | some e =>
        let acc := artistLoop id fmt n resolveRel fs listing betterArt fetchFor
          rr.dm succ rest
        ⟨acc.dm, ev0 ++ rr.events ++ acc.events, acc.successCount,
          (r.title ++ ": " ++ e) :: acc.failed, acc.cancelled, acc.err⟩

def downloadArtist (dm : DM) (id : String) (art : Artist) (fmt : String)
    (resolveArt : Except String (Option (List Release)))
    (resolveRel : Release → Except String (Option (List Song × String)))
    (fs listing : List String) (betterArt : Option String)
    (fetchFor : Song → FetchRes) : ArtRes :=
  let outputDir := pathJoin dm.settings.downloadDir (sanitize_filename art.title)
  let dm := { dm with queue := qUpdate dm.queue id (fun d => { d with outputPath := outputDir }) }
  let fetched : Except (String × List Event) (DM × Artist × List Event) :=
    if art.releases.isEmpty then
      let ev0 : List Event :=
        if qContains dm.queue id then
          [Event.progress id 0 ("Fetching artist details: " ++ art.title)]
        else []
      match resolveArt with
      | .error e => .error ("Failed to fetch artist details: " ++ e, ev0)
      | .ok none => .ok (dm, art, ev0)
      | .ok (some rels) =>
        let resolved := resolveArtistReleases resolveRel rels
        let art := { art with releases := resolved.1 }
        let dm := { dm with queue := qUpdate dm.queue id (fun d => { d with totalSongs := resolved.2, status := .QUEUED }) }
        .ok (dm, art, ev0)
    else .ok (dm, art, [])
  match fetched with
  | .error (e, ev0) => ⟨dm, ev0, 0, [], false, some e⟩
  | .ok (dm, art, ev0) =>
    if art.releases.isEmpty then
      ⟨dm, ev0, 0, [], false, some ("No releases found for artist: " ++ art.title)⟩
    else
      let acc := artistLoop id fmt art.releases.length resolveRel fs listing
        betterArt fetchFor dm 0 art.releases
      if acc.cancelled then { acc with events := ev0 ++ acc.events }
      else
        let fin := artistFinalize acc.dm id art.title art.releases.length
          acc.successCount acc.failed
        { acc with dm := fin.1, events := ev0 ++ acc.events ++ fin.2 }

/-! ## Lemmas about the queue primitives -/

theorem qLookup_update_self (q : List (String × DownloadItem)) (id : String)
    (f : DownloadItem → DownloadItem) :
    qLookup (qUpdate q id f) id = (qLookup q id).map f := by
  induction q with
  | nil => rfl
  | cons p rest ih =>
    by_cases h : p.1 = id <;> simp [qUpdate, qLookup, h, ih]

theorem qLookup_update_ne (q : List (String × DownloadItem)) (id id2 : String)
    (f : DownloadItem → DownloadItem) (h : id2 ≠ id) :
    qLookup (qUpdate q id f) id2 = qLookup q id2 := by
  induction q with
  | nil => rfl
  | cons p rest ih =>
    have hid : ¬ id = id2 := fun hc => h hc.symm
    by_cases hp : p.1 = id
    · simp [qUpdate, qLookup, hp, hid, ih, h]
    · by_cases hp2 : p.1 = id2 <;> simp [qUpdate, qLookup, hp, hp2, ih, h]

theorem qContains_update (q : List (String × DownloadItem)) (id id2 : String)
    (f : DownloadItem → DownloadItem) :
    qContains (qUpdate q id f) id2 = qContains q id2 := by
  by_cases h : id2 = id
  · subst h
    simp [qContains, qLookup_update_self]
  · simp [qContains, qLookup_update_ne q id id2 f h]

theorem qLookup_pop_self (q : List (String × DownloadItem)) (id : String) :
    qLookup (qPop q id) id = none := by
  induction q with
  | nil => rfl
  | cons p rest ih =>
    by_cases h : p.1 = id <;> simp [qPop, qLookup, h, ih]

theorem qLookup_pop_ne (q : List (String × DownloadItem)) (id id2 : String)
    (h : id2 ≠ id) :
    qLookup (qPop q id) id2 = qLookup q id2 := by
  induction q with
  | nil => rfl
  | cons p rest ih =>
    have hid : ¬ id = id2 := fun hc => h hc.symm
    by_cases hp : p.1 = id
    · simp [qPop, qLookup, hp, hid, ih, h]
    · by_cases hp2 : p.1 = id2 <;> simp [qPop, qLookup, hp, hp2, ih, h]

theorem qContains_false_iff (q : List (String × DownloadItem)) (id : String) :
    qContains q id = false ↔ qLookup q id = none := by
  unfold qContains
  cases qLookup q id <;> simp

theorem qLookup_append_single_ne (q : List (String × DownloadItem))
    (id id2 : String) (v : DownloadItem) (h : id2 ≠ id) :
    qLookup (q ++ [(id, v)]) id2 = qLookup q id2 := by
  induction q with
  | nil =>
    have hne : ¬ id = id2 := fun hc => h hc.symm
    simp [qLookup, hne]
  | cons p rest ih =>
    by_cases hp : p.1 = id2 <;> simp [qLookup, hp, ih]

theorem qLookup_append_single_self (q : List (String × DownloadItem))
    (id : String) (v : DownloadItem) (h : qLookup q id = none) :
    qLookup (q ++ [(id, v)]) id = some v := by
  induction q with
  | nil => simp [qLookup]
  | cons p rest ih =>
    by_cases hp : p.1 = id
    · rw [qLookup, if_pos hp] at h
      simp at h
    · rw [qLookup, if_neg hp] at h
      simp only [List.cons_append, qLookup, hp, if_false]
      exact ih h

theorem qLookup_assign_self (q : List (String × DownloadItem)) (id : String)
    (v : DownloadItem) :
    qLookup (qAssign q id v) id = some v := by
  unfold qAssign
  by_cases h : qContains q id = true
  · simp only [h, if_true, qLookup_update_self]
    unfold qContains at h
    cases hq : qLookup q id with
    | none => rw [hq] at h; simp at h
    | some d => simp
  · have hq : qLookup q id = none := by
      rw [← qContains_false_iff]
      simpa using h
    simp only [h, if_false, Bool.false_eq_true]
    exact qLookup_append_single_self q id v hq

theorem qContains_assign_other (q : List (String × DownloadItem)) (id id2 : String)
    (v : DownloadItem) (h : id2 ≠ id) :
    qContains (qAssign q id v) id2 = qContains q id2 := by
  unfold qAssign
  by_cases hc : qContains q id = true
  · unfold qContains at hc
    simp [hc, qContains, qLookup_update_ne q id id2 _ h]
  · unfold qContains at hc
    simp [hc, qContains, qLookup_append_single_ne q id id2 v h]

theorem entryStatus_update_status (dm : DM) (id : String) (st : DownloadStatus)
    (h : qContains dm.queue id = true) :
    entryStatus { dm with queue := qUpdate dm.queue id (fun d => { d with status := st }) } id
      = some st := by
  unfold entryStatus qContains at *
  simp only [qLookup_update_self]
  cases hq : qLookup dm.queue id with
  | none => rw [hq] at h; simp at h
  | some d => simp

/-! ## Claim theorems -/

/-- A pool of concrete objects used by witnesses and counterexamples. -/
def songW : Song :=
  { id := "s1", title := "T1", thumbnailUrl := "x", url := "https://e/1",
    artist := "A1" }

def entrySongW : DownloadItem := { item := .song songW, status := .DOWNLOADING }

def entrySongQueuedW : DownloadItem := { item := .song songW, status := .QUEUED }

def dmW : DM :=
  { queue := [("a", entrySongW), ("b", entrySongQueuedW)], active := ["a"],
    settings := {} }

/-- C10: `cancel_download` with an id that is not a key of the queue is a
no-op: the manager state (queue, active set, every entry) is returned
unchanged and no event is emitted. -/
theorem C10_cancel_unknown_id_noop (dm : DM) (id : String)
    (h : qContains dm.queue id = false) :
    cancelDownload dm id = (dm, []) := by
  unfold cancelDownload
  simp [h]

/-- C10 witness: the no-op at a concrete state and unknown id. -/
theorem C10_cancel_unknown_id_noop_witness :
    qContains dmW.queue "zzz" = false ∧ cancelDownload dmW "zzz" = (dmW, []) :=
  ⟨by decide, C10_cancel_unknown_id_noop dmW "zzz" (by decide)⟩

/-- C4: for an entry present in the queue, `cancel_download` removes a
non-active entry synchronously and emits exactly one CANCELLED event
(leaving all other entries and the active set untouched); for an active
entry it keeps the entry in the queue with status CANCELLED and emits
nothing, and the in-flight download observes the flag at its next
checkpoint: the fetch-loop checkpoint reports termination of the external
process, and the per-song / per-release loops abort immediately, skipping
all remaining children. -/
theorem C4_cancel_queued_vs_active (dm : DM) (id : String)
    (hpresent : qContains dm.queue id = true) :
    (dm.active.contains id = false →
      qContains ((cancelDownload dm id).1).queue id = false ∧
      (cancelDownload dm id).2 = [Event.statusChanged id .CANCELLED ""] ∧
      (∀ id2, id2 ≠ id →
        qLookup ((cancelDownload dm id).1).queue id2 = qLookup dm.queue id2) ∧
      ((cancelDownload dm id).1).active = dm.active) ∧
    (dm.active.contains id = true →
      qContains ((cancelDownload dm id).1).queue id = true ∧
      entryStatus ((cancelDownload dm id).1) id = some .CANCELLED ∧
      (cancelDownload dm id).2 = [] ∧
      fetchCancelCheckpoint (cancelDownload dm id).1 id =
        (true, [Event.statusChanged id .CANCELLED ""]) ∧
      (∀ rel fmt fs listing ba ff song rest,
        (releaseLoop id rel fmt fs listing ba ff (cancelDownload dm id).1
            (song :: rest)).cancelled = true ∧
        (releaseLoop id rel fmt fs listing ba ff (cancelDownload dm id).1
            (song :: rest)).submitted = []) ∧
      (∀ fmt n rr fs listing ba ff succ r rest,
        (artistLoop id fmt n rr fs listing ba ff (cancelDownload dm id).1 succ
            (r :: rest)).cancelled = true)) := by
  constructor
  · intro hact
    have hcan : cancelDownload dm id =
        ({ dm with queue := qPop dm.queue id },
          [Event.statusChanged id .CANCELLED ""]) := by
      have hmem : id ∉ dm.active := by simpa using hact
      unfold cancelDownload
      simp [hpresent, hmem]
    rw [hcan]
    refine ⟨?_, rfl, ?_, rfl⟩
    · simp [qContains, qLookup_pop_self]
    · intro id2 h2
      simp [qLookup_pop_ne dm.queue id id2 h2]
  · intro hact
    have hcan : cancelDownload dm id =
        ({ dm with queue := qUpdate dm.queue id (fun d => { d with status := .CANCELLED }) },
          []) := by
      have hmem : id ∈ dm.active := by simpa using hact
      unfold cancelDownload
      simp [hpresent, hmem]
    have hst : entryStatus (cancelDownload dm id).1 id = some .CANCELLED := by
      rw [hcan]
      exact entryStatus_update_status dm id .CANCELLED hpresent
    refine ⟨?_, hst, by rw [hcan], ?_, ?_, ?_⟩
    · rw [hcan]
      simp [qContains_update, hpresent]
    · unfold fetchCancelCheckpoint
      simp [hst]
    · intro rel fmt fs listing ba ff song rest
      constructor <;> simp [releaseLoop, hst]
    · intro fmt n rr fs listing ba ff succ r rest
      simp [artistLoop, hst]

/-- C4 witness: the theorem applied at a concrete state holding one active
entry "a" and one queued entry "b". -/
theorem C4_cancel_queued_vs_active_witness :
    qContains dmW.queue "a" = true ∧ dmW.active.contains "a" = true ∧
    qContains dmW.queue "b" = true ∧ dmW.active.contains "b" = false ∧
    entryStatus ((cancelDownload dmW "a").1) "a" = some .CANCELLED ∧
    qContains ((cancelDownload dmW "b").1).queue "b" = false ∧
    (cancelDownload dmW "b").2 = [Event.statusChanged "b" .CANCELLED ""] :=
  ⟨by decide, by decide, by decide, by decide,
    ((C4_cancel_queued_vs_active dmW "a" (by decide)).2 (by decide)).2.1,
    ((C4_cancel_queued_vs_active dmW "b" (by decide)).1 (by decide)).1,
    ((C4_cancel_queued_vs_active dmW "b" (by decide)).1 (by decide)).2.1⟩

/-! ## C2: zero-success-is-FAILED aggregation for collections -/

def setW : Settings :=
  { useAlbumFolders := false, autoRename := true, checkDuplicates := false,
    downloadDir := "D" }

def relFailC2 : Release :=
  { id := "rf", title := "Afail", thumbnailUrl := "x", url := "uf", artist := "AA" }

def relOkC2 : Release :=
  { id := "ro", title := "Bok", thumbnailUrl := "x", url := "uo", artist := "AA",
    songs := [songW] }

def artC2 : Artist :=
  { id := "ac2", title := "AA", thumbnailUrl := "x", url := "u",
    releases := [relFailC2, relOkC2] }

def dmC2 : DM :=
  { queue := [("A", { item := .artist artC2, status := .DOWNLOADING, totalSongs := 2 })],
    active := ["A"], settings := setW }

def fsC2 : List String := ["D/Singles/A1 - T1.mp3"]

def resolveRelC2 (r : Release) : Except String (Option (List Song × String)) :=
  if r.id = "rf" then .error "boom" else .ok (some ([], ""))

/-- The artist download of claim C2's example: release "Afail" fails (its
resolver raises), release "Bok" succeeds (its only song's file already
exists on disk). -/
def artResC2 : ArtRes :=
  downloadArtist dmC2 "A" artC2 "mp3" (.error "unused") resolveRelC2 fsC2 [] none
    (fun _ => .produced)

def relFail2C2 : Release :=
  { id := "rf2", title := "Cfail", thumbnailUrl := "x", url := "uf2", artist := "AA" }

def artC2b : Artist :=
  { id := "ac2b", title := "AA", thumbnailUrl := "x", url := "u",
    releases := [relFailC2, relFail2C2] }

def dmC2b : DM :=
  { queue := [("A", { item := .artist artC2b, status := .DOWNLOADING, totalSongs := 2 })],
    active := ["A"], settings := setW }

/-- The artist download with every release failing. -/
def artResC2b : ArtRes :=
  downloadArtist dmC2b "A" artC2b "mp3" (.error "unused") (fun _ => .error "boom")
    fsC2 [] none (fun _ => .produced)

def songZeroC2 : Song :=
  { id := "sz", title := "TZ", thumbnailUrl := "x", url := "https://e/z",
    artist := "AZ" }

def relZeroC2 : Release :=
  { id := "rz", title := "Rzero", thumbnailUrl := "x", url := "uz", artist := "AA",
    songs := [songZeroC2] }

def artZeroC2 : Artist :=
  { id := "az", title := "AA", thumbnailUrl := "x", url := "u",
    releases := [relZeroC2] }

def dmZeroC2 : DM :=
  { queue := [("A", { item := .artist artZeroC2, status := .DOWNLOADING, totalSongs := 1 })],
    active := ["A"], settings := setW }

/-- The release of the zero-song-success scenario run on its own: its only
song's fetch fails, so the aggregation marks the entry FAILED — yet the
call returns without raising (`err = none`). -/
def relZeroRunC2 : RelRes :=
  downloadRelease dmZeroC2 "A" relZeroC2 "mp3" (fun _ => .error "unused") [] []
    none (fun _ => .failedFetch "network down")

/-- The artist download whose only release runs but downloads zero songs. -/
def artZeroRunC2 : ArtRes :=
  downloadArtist dmZeroC2 "A" artZeroC2 "mp3" (.error "unused")
    (fun _ => .error "unused") [] [] none (fun _ => .failedFetch "network down")

/-- Accounting for the artist loop: when no cancellation is observed, every
release of the list lands in exactly one of the two buckets — the success
counter (its `_download_release` call returned without raising) or the
failed list (it raised). -/
theorem artistLoop_accounting (id fmt : String) (n : Nat)
    (rv : Release → Except String (Option (List Song × String)))
    (fs listing : List String) (ba : Option String) (ff : Song → FetchRes) :
    ∀ (rels : List Release) (dm : DM) (succ : Nat),
      (artistLoop id fmt n rv fs listing ba ff dm succ rels).cancelled = false →
      (artistLoop id fmt n rv fs listing ba ff dm succ rels).successCount +
        (artistLoop id fmt n rv fs listing ba ff dm succ rels).failed.length =
        succ + rels.length := by
  intro rels
  induction rels with
  | nil => intro dm succ _; rfl
  | cons r rest ih =>
    intro dm succ h
    by_cases hc : entryStatus dm id = some .CANCELLED
    · rw [artistLoop, if_pos hc] at h
      simp at h
    · rw [artistLoop, if_neg hc] at h ⊢
      cases herr : (downloadRelease dm id r fmt rv fs listing ba ff).err with
      | none =>
        simp only [herr] at h ⊢
        have := ih (downloadRelease dm id r fmt rv fs listing ba ff).dm (succ + 1) h
        simp only [List.length_cons]
        omega
      | some e =>
        simp only [herr] at h ⊢
        have := ih (downloadRelease dm id r fmt rv fs listing ba ff).dm succ h
        simp only [List.length_cons]
        omega

/-- C2 counterexample: the claim says an Artist ends FAILED iff zero of its
releases succeeded; but `_download_artist` counts any `_download_release`
call that returns without raising as a success.  An artist whose only
release runs and downloads zero songs — so that release's own aggregation
marks the entry FAILED mid-run — still ends COMPLETED with
"Downloaded 1/1 releases", although zero of its children succeeded. -/
theorem C2_failed_release_counts_as_artist_success :
    relZeroRunC2.successCount = 0 ∧
    relZeroRunC2.err = none ∧
    relZeroRunC2.events.getLast? =
      some (Event.statusChanged "A" .FAILED "Failed to download release: Rzero") ∧
    Event.statusChanged "A" .FAILED "Failed to download release: Rzero" ∈
      artZeroRunC2.events ∧
    artZeroRunC2.successCount = 1 ∧
    entryStatus artZeroRunC2.dm "A" = some .COMPLETED ∧
    artZeroRunC2.events.getLast? =
      some (Event.statusChanged "A" .COMPLETED "Downloaded 1/1 releases") := by
  refine ⟨by decide, by decide, by decide, by decide, by decide, by decide, by decide⟩

/-- C2 (amended): at the release level the aggregation marks the entry
FAILED — with the error messages joined into `error_message` — iff zero
leaf songs succeeded, and otherwise COMPLETED with a "Downloaded k/n songs"
event; at the artist level a release counts as successful iff its
`_download_release` call returned without raising (in an uncancelled artist
loop every release lands in exactly one of the success counter and the
failed list), so the artist ends FAILED iff every release call raised.  The
spec's example [Afail, Bok] ends COMPLETED with "Downloaded 1/2 releases";
with every release raising the artist ends FAILED with both messages
joined; and an artist whose only release runs but downloads zero songs
still ends COMPLETED with "Downloaded 1/1 releases". -/
theorem C2_aggregation_by_level :
    (∀ (dm : DM) (id t : String) (selLen succ : Nat) (errs : List String),
      qContains dm.queue id = true →
      entryStatus { dm with queue := (releaseFinalize dm id t selLen succ errs).1.queue } id =
        some (if succ = 0 then .FAILED else .COMPLETED) ∧
      (succ = 0 →
        (qLookup (releaseFinalize dm id t selLen succ errs).1.queue id).map
            DownloadItem.errorMessage = some (String.intercalate "\n" errs) ∧
        (releaseFinalize dm id t selLen succ errs).2 =
          [Event.statusChanged id .FAILED ("Failed to download release: " ++ t)]) ∧
      (¬ succ = 0 →
        (releaseFinalize dm id t selLen succ errs).2 =
          [Event.statusChanged id .COMPLETED
            ("Downloaded " ++ toString succ ++ "/" ++ toString selLen ++ " songs")])) ∧
    (∀ (dm : DM) (id t : String) (relCount succ : Nat) (failed : List String),
      qContains dm.queue id = true →
      entryStatus { dm with queue := (artistFinalize dm id t relCount succ failed).1.queue } id =
        some (if succ = 0 then .FAILED else .COMPLETED) ∧
      (succ = 0 →
        (qLookup (artistFinalize dm id t relCount succ failed).1.queue id).map
            DownloadItem.errorMessage = some (String.intercalate "\n" failed) ∧
        (artistFinalize dm id t relCount succ failed).2 =
          [Event.statusChanged id .FAILED ("Failed to download any releases for: " ++ t)]) ∧
      (¬ succ = 0 →
        (artistFinalize dm id t relCount succ failed).2 =
          [Event.statusChanged id .COMPLETED
            ("Downloaded " ++ toString succ ++ "/" ++ toString relCount ++ " releases")])) ∧
    (∀ (id fmt : String) (n : Nat)
      (rv : Release → Except String (Option (List Song × String)))
      (fs listing : List String) (ba : Option String) (ff : Song → FetchRes)
      (rels : List Release) (dm : DM) (succ : Nat),
      (artistLoop id fmt n rv fs listing ba ff dm succ rels).cancelled = false →
      (artistLoop id fmt n rv fs listing ba ff dm succ rels).successCount +
        (artistLoop id fmt n rv fs listing ba ff dm succ rels).failed.length =
        succ + rels.length) ∧
    (entryStatus artResC2.dm "A" = some .COMPLETED ∧
      artResC2.successCount = 1 ∧
      artResC2.failed = ["Afail: Failed to fetch release details: boom"] ∧
      artResC2.events.getLast? =
        some (Event.statusChanged "A" .COMPLETED "Downloaded 1/2 releases")) ∧
    (entryStatus artResC2b.dm "A" = some .FAILED ∧
      artResC2b.successCount = 0 ∧
      (qLookup artResC2b.dm.queue "A").map DownloadItem.errorMessage =
        some ("Afail: Failed to fetch release details: boom\nCfail: Failed to fetch release details: boom") ∧
      artResC2b.events.getLast? =
        some (Event.statusChanged "A" .FAILED "Failed to download any releases for: AA")) ∧
    (entryStatus artZeroRunC2.dm "A" = some .COMPLETED ∧
      artZeroRunC2.successCount = 1 ∧
      artZeroRunC2.failed = [] ∧
      artZeroRunC2.events.getLast? =
        some (Event.statusChanged "A" .COMPLETED "Downloaded 1/1 releases")) := by
  refine ⟨?_, ?_, ?_, ?_, ?_, ?_⟩
  · intro dm id t selLen succ errs hpresent
    obtain ⟨d, hd⟩ : ∃ d, qLookup dm.queue id = some d := by
      unfold qContains at hpresent
      cases hq : qLookup dm.queue id with
      | none => rw [hq] at hpresent; simp at hpresent
      | some d => exact ⟨d, rfl⟩
    unfold releaseFinalize entryStatus
    rw [hd]
    by_cases hz : succ = 0 <;>
      simp [hz, qLookup_update_self, hd]
  · intro dm id t relCount succ failed hpresent
    obtain ⟨d, hd⟩ : ∃ d, qLookup dm.queue id = some d := by
      unfold qContains at hpresent
      cases hq : qLookup dm.queue id with
      | none => rw [hq] at hpresent; simp at hpresent
      | some d => exact ⟨d, rfl⟩
    unfold artistFinalize entryStatus
    rw [hd]
    by_cases hz : succ = 0 <;>
      simp [hz, qLookup_update_self, hd]
  · intro id fmt n rv fs listing ba ff rels dm succ h
    exact artistLoop_accounting id fmt n rv fs listing ba ff rels dm succ h
  · refine ⟨by decide, by decide, by decide, by decide⟩
  · refine ⟨by decide, by decide, by decide, by decide⟩
  · refine ⟨by decide, by decide, by decide, by decide⟩

/-- C2 witness: the aggregation rules and the success-accounting identity
applied at concrete queue states. -/
theorem C2_aggregation_by_level_witness :
    qContains dmC2.queue "A" = true ∧
    entryStatus { dmC2 with queue := (releaseFinalize dmC2 "A" "R" 3 0 ["e1", "e2"]).1.queue } "A" =
      some .FAILED ∧
    (releaseFinalize dmC2 "A" "R" 3 2 []).2 =
      [Event.statusChanged "A" .COMPLETED "Downloaded 2/3 songs"] ∧
    (artistLoop "A" "mp3" 1 (fun _ => .error "unused") [] [] none
        (fun _ => .failedFetch "network down") dmZeroC2 0 [relZeroC2]).successCount +
      (artistLoop "A" "mp3" 1 (fun _ => .error "unused") [] [] none
        (fun _ => .failedFetch "network down") dmZeroC2 0 [relZeroC2]).failed.length =
      0 + 1 :=
  ⟨by decide,
    by
      have h := (C2_aggregation_by_level.1 dmC2 "A" "R" 3 0 ["e1", "e2"]
        (by decide)).1
      simpa using h,
    (C2_aggregation_by_level.1 dmC2 "A" "R" 3 2 [] (by decide)).2.2 (by decide),
    C2_aggregation_by_level.2.2.1 "A" "mp3" 1 (fun _ => .error "unused") [] [] none
      (fun _ => .failedFetch "network down") [relZeroC2] dmZeroC2 0 (by decide)⟩

/-! ## C3 / C9: the dispatch loop and the active-set invariant -/

theorem strContains_true_iff (l : List String) (a : String) :
    l.contains a = true ↔ a ∈ l := List.elem_iff

theorem strContains_false_iff (l : List String) (a : String) :
    l.contains a = false ↔ a ∉ l := by
  cases hc : l.contains a
  · simp only [true_iff]
    intro hm
    rw [(strContains_true_iff l a).mpr hm] at hc
    cases hc
  · simp only [Bool.true_eq_false, false_iff, not_not]
    exact (strContains_true_iff l a).mp hc

theorem qContains_of_mem (q : List (String × DownloadItem)) (id : String)
    (d : DownloadItem) (h : (id, d) ∈ q) : qContains q id = true := by
  induction q with
  | nil => simp at h
  | cons p rest ih =>
    rcases List.mem_cons.mp h with h1 | h2
    · simp [qContains, qLookup, ← h1]
    · by_cases hp : p.1 = id
      · simp [qContains, qLookup, hp]
      · simpa [qContains, qLookup, hp] using ih h2

/-- What one pass of the admission loop does: it extends both the active set
and `next_downloads` by one common batch `δ` of ids; every id in the batch
names a QUEUED entry of the queue and was not active at entry; the batch
respects the slot bound; appending it preserves duplicate-freedom. -/
theorem admitLoop_spec (avail : Int) (q : List (String × DownloadItem)) :
    ∀ (a n : List String),
      ∃ δ, admitLoop avail q a n = (a ++ δ, n ++ δ) ∧
        (∀ id ∈ δ, (∃ d, (id, d) ∈ q ∧ d.status = .QUEUED) ∧ id ∉ a) ∧
        (((n.length : Int) ≤ avail) → (((n ++ δ).length : Int) ≤ avail)) ∧
        (a.Nodup → (a ++ δ).Nodup) := by
  induction q with
  | nil =>
    intro a n
    exact ⟨[], by simp [admitLoop], by simp, by simp, by simp⟩
  | cons p rest ih =>
    intro a n
    by_cases hc :
        (p.2.status = DownloadStatus.QUEUED && !(a.contains p.1) &&
          ((n.length : Int) < avail)) = true
    · obtain ⟨⟨hq, hna⟩, hlt⟩ : (p.2.status = .QUEUED ∧ p.1 ∉ a) ∧
          ((n.length : Int) < avail) := by
        simpa [Bool.and_eq_true, decide_eq_true_eq, strContains_false_iff] using hc
      obtain ⟨δ', h1, h2, h3, h4⟩ := ih (a ++ [p.1]) (n ++ [p.1])
      refine ⟨p.1 :: δ', ?_, ?_, ?_, ?_⟩
      · have heq : admitLoop avail (p :: rest) a n =
            admitLoop avail rest (a ++ [p.1]) (n ++ [p.1]) := by
          simp only [admitLoop]
          rw [if_pos hc]
        rw [heq, h1]
        simp
      · intro id hid
        rcases List.mem_cons.mp hid with h1' | h2'
        · refine ⟨⟨p.2, ?_, hq⟩, h1' ▸ hna⟩
          rw [h1']
          exact List.mem_cons_self p rest
        · obtain ⟨⟨d, hd, hds⟩, hcont⟩ := h2 id h2'
          refine ⟨⟨d, List.mem_cons_of_mem p hd, hds⟩, ?_⟩
          intro hm
          exact hcont (List.mem_append_left [p.1] hm)
      · intro hle
        have hstep : (((n ++ [p.1]).length : Int) ≤ avail) := by
          simp only [List.length_append, List.length_cons, List.length_nil]
          push_cast
          omega
        have hfin := h3 hstep
        simp only [List.length_append, List.length_cons, List.length_nil] at hfin ⊢
        push_cast at hfin ⊢
        omega
      · intro hnd
        have hnd1 : (a ++ [p.1]).Nodup := by
          simp [List.nodup_append, hnd, hna]
        have := h4 hnd1
        rwa [List.append_assoc] at this
    · obtain ⟨δ', h1, h2, h3, h4⟩ := ih a n
      refine ⟨δ', ?_, ?_, h3, h4⟩
      · have heq : admitLoop avail (p :: rest) a n = admitLoop avail rest a n := by
          simp only [admitLoop]
          rw [if_neg hc]
        rw [heq, h1]
      · intro id hid
        obtain ⟨⟨d, hd, hds⟩, hcont⟩ := h2 id hid
        exact ⟨⟨d, List.mem_cons_of_mem p hd, hds⟩, hcont⟩

/-- `dispatchSelect` viewed through `admitLoop_spec`. -/
theorem dispatchSelect_spec (dm : DM) :
    ∃ δ, dispatchSelect dm = ({ dm with active := dm.active ++ δ }, δ) ∧
      (∀ id ∈ δ, (∃ d, (id, d) ∈ dm.queue ∧ d.status = .QUEUED) ∧
        id ∉ dm.active) ∧
      (dm.active.length + δ.length ≤ dm.settings.threads ∨ δ = []) ∧
      (dm.active.Nodup → (dm.active ++ δ).Nodup) := by
  unfold dispatchSelect
  by_cases hp : (0 : Int) < (dm.settings.threads : Int) - (dm.active.length : Int)
  · obtain ⟨δ, h1, h2, h3, h4⟩ :=
      admitLoop_spec ((dm.settings.threads : Int) - (dm.active.length : Int))
        dm.queue dm.active []
    refine ⟨δ, ?_, h2, ?_, h4⟩
    · rw [if_pos hp, h1]
      simp
    · left
      have hfin := h3 (by simp; omega)
      simp only [List.nil_append] at hfin
      push_cast at hfin
      omega
  · refine ⟨[], ?_, by simp, Or.inr rfl, by simp⟩
    rw [if_neg hp]
    simp

theorem dmInv_dispatchSelect (dm : DM) (h : dmInv dm) :
    dmInv (dispatchSelect dm).1 := by
  obtain ⟨δ, heq, hmem, hlen, hnd⟩ := dispatchSelect_spec dm
  obtain ⟨hnd0, hle0, hsub0⟩ := h
  rw [heq]
  refine ⟨hnd hnd0, ?_, ?_⟩
  · rcases hlen with hl | hl
    · simpa using hl
    · simp [hl, hle0]
  · intro id hid
    rcases List.mem_append.mp hid with hmem' | hmem'
    · exact hsub0 id hmem'
    · obtain ⟨⟨d, hd, _⟩, _⟩ := hmem id hmem'
      exact qContains_of_mem dm.queue id d hd

theorem dmInv_threadFinish (dm : DM) (id : String) (h : dmInv dm) :
    dmInv (threadFinish dm id) ∧ (threadFinish dm id).active.contains id = false := by
  obtain ⟨hnd, hle, hsub⟩ := h
  unfold threadFinish
  by_cases hc : dm.active.contains id = true
  · rw [if_pos hc]
    refine ⟨⟨hnd.erase id, ?_, ?_⟩, ?_⟩
    · exact le_trans (List.erase_sublist id dm.active).length_le hle
    · intro x hx
      exact hsub x (List.mem_of_mem_erase hx)
    · rw [strContains_false_iff]
      exact hnd.not_mem_erase
  · rw [if_neg (by simpa using hc)]
    exact ⟨⟨hnd, hle, hsub⟩, by simpa using hc⟩

/-- The two reachable mutations of `cancel_download`, as explicit equations. -/
theorem cancelDownload_cases (dm : DM) (id : String) :
    (qContains dm.queue id = false ∧ cancelDownload dm id = (dm, [])) ∨
    (qContains dm.queue id = true ∧ id ∈ dm.active ∧
      cancelDownload dm id =
        ({ dm with queue := qUpdate dm.queue id (fun d => { d with status := .CANCELLED }) }, [])) ∨
    (qContains dm.queue id = true ∧ id ∉ dm.active ∧
      cancelDownload dm id =
        ({ dm with queue := qPop dm.queue id },
          [Event.statusChanged id .CANCELLED ""])) := by
  by_cases hq : qContains dm.queue id = true
  · by_cases ha : id ∈ dm.active
    · refine Or.inr (Or.inl ⟨hq, ha, ?_⟩)
      unfold cancelDownload
      simp [hq, ha]
    · refine Or.inr (Or.inr ⟨hq, ha, ?_⟩)
      unfold cancelDownload
      simp [hq, ha]
  · refine Or.inl ⟨by simpa using hq, ?_⟩
    unfold cancelDownload
    simp [hq]

theorem dmInv_cancel (dm : DM) (id : String) (h : dmInv dm) :
    dmInv (cancelDownload dm id).1 := by
  obtain ⟨hnd, hle, hsub⟩ := h
  rcases cancelDownload_cases dm id with ⟨_, heq⟩ | ⟨_, _, heq⟩ | ⟨_, hna, heq⟩ <;>
    rw [heq]
  · exact ⟨hnd, hle, hsub⟩
  · refine ⟨hnd, hle, ?_⟩
    intro x hx
    rw [qContains_update]
    exact hsub x hx
  · refine ⟨hnd, hle, ?_⟩
    intro x hx
    have hxne : x ≠ id := fun hcx => hna (hcx ▸ hx)
    unfold qContains
    rw [qLookup_pop_ne dm.queue id x hxne]
    exact hsub x hx

theorem dmInv_addToQueue (dm : DM) (it : Item) (fa qa : Option String) (ts : Nat)
    (h : dmInv dm) : dmInv (addToQueue dm it fa qa ts).1 := by
  obtain ⟨hnd, hle, hsub⟩ := h
  refine ⟨hnd, hle, ?_⟩
  intro x hx
  show qContains (qAssign dm.queue _ _) x = true
  by_cases hxid : x = (it.ctypeOf.value ++ "_" ++ it.idOf ++ "_" ++ toString ts)
  · unfold qContains
    rw [hxid, qLookup_assign_self]
    rfl
  · rw [qContains_assign_other dm.queue _ x _ hxid]
    exact hsub x hx

/-- C3: the active-set well-formedness — `|ActiveSet| ≤ thread count`, every
active id a key of the queue — is preserved by the dispatch pass, by thread
completion, by cancellation and by enqueueing; the dispatch pass admits only
QUEUED, not-already-active entries (marking them DOWNLOADING when started),
admits nothing when no slot is free, and a finishing download thread always
leaves the active set. -/
theorem C3_active_set_invariant (dm : DM) (h : dmInv dm) :
    dmInv (dispatchSelect dm).1 ∧
    (∀ id ∈ (dispatchSelect dm).2,
      (∃ d, (id, d) ∈ dm.queue ∧ d.status = .QUEUED) ∧
      id ∉ dm.active ∧ qContains dm.queue id = true) ∧
    (dm.settings.threads ≤ dm.active.length → dispatchSelect dm = (dm, [])) ∧
    (∀ id, dmInv (threadFinish dm id) ∧
      (threadFinish dm id).active.contains id = false) ∧
    (∀ id, dmInv (cancelDownload dm id).1) ∧
    (∀ it fa qa ts, dmInv (addToQueue dm it fa qa ts).1) ∧
    (∀ id r, startDownload dm id = .ok r → entryStatus r.1 id = some .DOWNLOADING) := by
  refine ⟨dmInv_dispatchSelect dm h, ?_, ?_, fun id => dmInv_threadFinish dm id h,
    fun id => dmInv_cancel dm id h,
    fun it fa qa ts => dmInv_addToQueue dm it fa qa ts h, ?_⟩
  · obtain ⟨δ, heq, hmem, _, _⟩ := dispatchSelect_spec dm
    rw [heq]
    intro id hid
    obtain ⟨⟨d, hd, hds⟩, hcont⟩ := hmem id hid
    exact ⟨⟨d, hd, hds⟩, hcont, qContains_of_mem dm.queue id d hd⟩
  · intro hfull
    unfold dispatchSelect
    rw [if_neg (by push_cast; omega)]
  · intro id r hr
    unfold startDownload at hr
    cases hq : qLookup dm.queue id with
    | none => rw [hq] at hr; exact absurd hr (by simp)
    | some d =>
      rw [hq] at hr
      have hr' : r = ({ dm with queue := qUpdate dm.queue id (fun d => { d with status := .DOWNLOADING }) },
          [Event.statusChanged id .DOWNLOADING ""]) := by
        injection hr with h'
        exact h'.symm
      rw [hr']
      exact entryStatus_update_status dm id .DOWNLOADING (by simp [qContains, hq])

/-- C3 witness: the invariant statement applied at a concrete two-entry
state with one busy slot. -/
theorem C3_active_set_invariant_witness :
    dmInv dmW ∧ dmInv (dispatchSelect dmW).1 ∧
    (∀ id, dmInv (threadFinish dmW id) ∧
      (threadFinish dmW id).active.contains id = false) :=
  ⟨⟨by decide, by decide, by decide⟩,
    (C3_active_set_invariant dmW ⟨by decide, by decide, by decide⟩).1,
    (C3_active_set_invariant dmW ⟨by decide, by decide, by decide⟩).2.2.2.1⟩

/-- Interference from the public mutators cannot strip an active entry from
the queue: `cancel_download` only pops entries that are not active, and
`add_to_queue` only adds. -/
theorem threadFinish_queue (dm : DM) (id : String) :
    (threadFinish dm id).queue = dm.queue := by
  unfold threadFinish
  split <;> rfl

theorem interf_keeps_active (dm : DM) (op : InterfOp) (x : String)
    (hact : x ∈ dm.active) (hq : qContains dm.queue x = true) :
    x ∈ (applyInterf dm op).active ∧ qContains (applyInterf dm op).queue x = true := by
  cases op with
  | cancel y =>
    show x ∈ (cancelDownload dm y).1.active ∧
      qContains (cancelDownload dm y).1.queue x = true
    rcases cancelDownload_cases dm y with ⟨_, heq⟩ | ⟨_, _, heq⟩ | ⟨_, hna, heq⟩ <;>
      rw [heq]
    · exact ⟨hact, hq⟩
    · exact ⟨hact, by rw [qContains_update]; exact hq⟩
    · refine ⟨hact, ?_⟩
      have hxne : x ≠ y := fun hcx => hna (hcx ▸ hact)
      unfold qContains
      rw [qLookup_pop_ne dm.queue y x hxne]
      exact hq
  | enqueue it fa qa ts =>
    show x ∈ (addToQueue dm it fa qa ts).1.active ∧
      qContains (addToQueue dm it fa qa ts).1.queue x = true
    refine ⟨hact, ?_⟩
    show qContains (qAssign dm.queue _ _) x = true
    by_cases hxid : x = (it.ctypeOf.value ++ "_" ++ it.idOf ++ "_" ++ toString ts)
    · unfold qContains
      rw [hxid, qLookup_assign_self]
      rfl
    · rw [qContains_assign_other dm.queue _ x _ hxid]
      exact hq

theorem interfList_keeps_active (ops : List InterfOp) :
    ∀ (dm : DM) (x : String), x ∈ dm.active → qContains dm.queue x = true →
      x ∈ (ops.foldl applyInterf dm).active ∧
      qContains (ops.foldl applyInterf dm).queue x = true := by
  induction ops with
  | nil => intro dm x h1 h2; exact ⟨h1, h2⟩
  | cons op rest ih =>
    intro dm x h1 h2
    obtain ⟨h1', h2'⟩ := interf_keeps_active dm op x h1 h2
    exact ih (applyInterf dm op) x h1' h2'

theorem startAll_ok (ids : List String) :
    ∀ dm : DM, (∀ id ∈ ids, qContains dm.queue id = true) →
      ∃ r, startAll dm ids = .ok r := by
  induction ids with
  | nil => intro dm _; exact ⟨(dm, []), rfl⟩
  | cons id rest ih =>
    intro dm hids
    have hid := hids id (List.mem_cons_self id rest)
    obtain ⟨d, hd⟩ : ∃ d, qLookup dm.queue id = some d := by
      unfold qContains at hid
      cases hq : qLookup dm.queue id with
      | none => rw [hq] at hid; simp at hid
      | some d => exact ⟨d, rfl⟩
    have hstart : startDownload dm id =
        .ok ({ dm with queue := qUpdate dm.queue id (fun d => { d with status := .DOWNLOADING }) },
          [Event.statusChanged id .DOWNLOADING ""]) := by
      unfold startDownload
      rw [hd]
    obtain ⟨r2, hr2⟩ := ih
      { dm with queue := qUpdate dm.queue id (fun d => { d with status := .DOWNLOADING }) }
      (by
        intro id2 hid2
        show qContains (qUpdate dm.queue id _) id2 = true
        rw [qContains_update]
        exact hids id2 (List.mem_cons_of_mem id hid2))
    refine ⟨(r2.1, [Event.statusChanged id .DOWNLOADING ""] ++ r2.2), ?_⟩
    unfold startAll
    rw [hstart]
    simp only [bind, Except.bind]
    rw [hr2]

/-- C9: a dispatch-loop iteration never raises.  Admission runs under the
lock; between it and the `_start_download` calls any interleaving of the
public mutators (cancellation, enqueueing) may run, yet every admitted id is
still a key of the queue when `_start_download` indexes it — an admitted id
is in the active set, and `cancel_download` never removes active entries —
so the iteration always returns `ok`; and an exception from an individual
entry's download body is absorbed by `_download_thread`, which records it as
a FAILED entry (when the entry is still present) instead of propagating. -/
theorem C9_dispatch_loop_never_raises :
    (∀ (dm : DM) (ops : List InterfOp), ∃ out, dispatchIter dm ops = .ok out) ∧
    (∀ (id : String) (dmB : DM) (evs : List Event) (e : String),
      qContains dmB.queue id = true →
      entryStatus (downloadThread id dmB evs (some e)).1 id = some .FAILED ∧
      (qLookup (downloadThread id dmB evs (some e)).1.queue id).map
        DownloadItem.errorMessage = some e ∧
      (downloadThread id dmB evs (some e)).2 =
        evs ++ [Event.statusChanged id .FAILED e]) := by
  constructor
  · intro dm ops
    obtain ⟨δ, heq, hmem, _, _⟩ := dispatchSelect_spec dm
    unfold dispatchIter
    rw [heq]
    have hkeys : ∀ id ∈ δ,
        qContains (ops.foldl applyInterf { dm with active := dm.active ++ δ }).queue id
          = true := by
      intro id hid
      obtain ⟨⟨d, hd, _⟩, _⟩ := hmem id hid
      have h1 : id ∈ ({ dm with active := dm.active ++ δ } : DM).active :=
        List.mem_append_right dm.active hid
      have h2 : qContains ({ dm with active := dm.active ++ δ } : DM).queue id = true :=
        qContains_of_mem dm.queue id d hd
      exact (interfList_keeps_active ops { dm with active := dm.active ++ δ } id h1 h2).2
    obtain ⟨r, hr⟩ := startAll_ok δ (ops.foldl applyInterf
      { dm with active := dm.active ++ δ }) hkeys
    refine ⟨(r.1, δ, r.2), ?_⟩
    show (match startAll (ops.foldl applyInterf { dm with active := dm.active ++ δ }) δ with
      | Except.ok s => Except.ok (s.1, δ, s.2)
      | Except.error e => Except.error e) = Except.ok (r.1, δ, r.2)
    rw [hr]
  · intro id dmB evs e hq
    obtain ⟨d, hd⟩ : ∃ d, qLookup dmB.queue id = some d := by
      unfold qContains at hq
      cases hl : qLookup dmB.queue id with
      | none => rw [hl] at hq; simp at hq
      | some d => exact ⟨d, rfl⟩
    unfold downloadThread
    simp only [hq, if_true]
    refine ⟨?_, ?_, by trivial⟩
    · unfold entryStatus
      rw [threadFinish_queue]
      show (qLookup (qUpdate dmB.queue id _) id).map _ = _
      rw [qLookup_update_self, hd]
      rfl
    · rw [threadFinish_queue]
      show (qLookup (qUpdate dmB.queue id _) id).map _ = _
      rw [qLookup_update_self, hd]
      rfl

/-- C9 witness: a full iteration at a concrete state with concurrent
cancellation of both a queued and the admitted entry, plus the absorption of
a concrete body exception. -/
theorem C9_dispatch_loop_never_raises_witness :
    (∃ out, dispatchIter dmW [.cancel "b", .cancel "a"] = .ok out) ∧
    qContains dmW.queue "a" = true ∧
    entryStatus (downloadThread "a" dmW [] (some "boom")).1 "a" = some .FAILED :=
  ⟨C9_dispatch_loop_never_raises.1 dmW [.cancel "b", .cancel "a"],
    by decide,
    (C9_dispatch_loop_never_raises.2 "a" dmW [] "boom" (by decide)).1⟩

/-! ## C5: the sanitizer -/

theorem replacePairs_length_le (l : List Char) :
    (replacePairs l).length ≤ l.length := by
  induction l using replacePairs.induct with
  | case1 => simp [replacePairs]
  | case2 c => simp [replacePairs]
  | case3 c1 c2 rest h ih =>
    simp only [replacePairs, h, if_true, List.length_cons]
    omega
  | case4 c1 c2 rest h ih =>
    simp only [replacePairs, h, if_false, Bool.false_eq_true, List.length_cons]
    simp only [List.length_cons] at ih
    omega

theorem replacePairs_length_lt (l : List Char) (h : hasDoubleSpace l = true) :
    (replacePairs l).length < l.length := by
  induction l using replacePairs.induct with
  | case1 => simp [hasDoubleSpace] at h
  | case2 c => simp [hasDoubleSpace] at h
  | case3 c1 c2 rest hc ih =>
    have := replacePairs_length_le rest
    simp only [replacePairs, hc, if_true, List.length_cons]
    omega
  | case4 c1 c2 rest hc ih =>
    have hd : hasDoubleSpace (c2 :: rest) = true := by
      rw [hasDoubleSpace, Bool.or_eq_true] at h
      rcases h with h1 | h2
      · exact absurd h1 hc
      · exact h2
    have := ih hd
    simp only [replacePairs, hc, if_false, Bool.false_eq_true, List.length_cons]
    simp only [List.length_cons] at this
    omega

theorem replacePairs_mem (l : List Char) (c : Char) (h : c ∈ replacePairs l) :
    c ∈ l := by
  induction l using replacePairs.induct with
  | case1 => simpa [replacePairs] using h
  | case2 c0 => simpa [replacePairs] using h
  | case3 c1 c2 rest hc ih =>
    simp only [replacePairs, hc, if_true, List.mem_cons] at h
    obtain ⟨h1, _⟩ := Bool.and_eq_true _ _ |>.mp hc
    have hc1 : c1 = ' ' := of_decide_eq_true h1
    rcases h with h' | h'
    · rw [h']
      simp [hc1]
    · right; right
      exact ih h'
  | case4 c1 c2 rest hc ih =>
    simp only [replacePairs, hc, if_false, Bool.false_eq_true, List.mem_cons] at h
    rcases h with h' | h'
    · exact List.mem_cons.mpr (Or.inl h')
    · exact List.mem_cons.mpr (Or.inr (ih h'))

theorem collapseSpacesAux_mem (fuel : Nat) :
    ∀ (l : List Char) (c : Char), c ∈ collapseSpacesAux fuel l → c ∈ l := by
  induction fuel with
  | zero => intro l c h; simpa [collapseSpacesAux] using h
  | succ fuel ih =>
    intro l c h
    rw [collapseSpacesAux] at h
    by_cases hd : hasDoubleSpace l = true
    · rw [if_pos hd] at h
      exact replacePairs_mem l c (ih (replacePairs l) c h)
    · rwa [if_neg hd] at h

theorem collapseSpacesAux_noDouble (fuel : Nat) :
    ∀ l : List Char, l.length ≤ fuel →
      hasDoubleSpace (collapseSpacesAux fuel l) = false := by
  induction fuel with
  | zero =>
    intro l h
    have : l = [] := List.length_eq_zero.mp (Nat.le_zero.mp h)
    rw [this]
    rfl
  | succ fuel ih =>
    intro l h
    rw [collapseSpacesAux]
    by_cases hd : hasDoubleSpace l = true
    · rw [if_pos hd]
      apply ih
      have := replacePairs_length_lt l hd
      omega
    · rw [if_neg hd]
      simpa using hd

theorem stripClass_mem (cs l : List Char) (c : Char) (h : c ∈ stripClass cs l) :
    c ∈ l := by
  unfold stripClass at h
  rw [List.mem_reverse] at h
  have h2 := (List.dropWhile_sublist (l := (l.dropWhile (charIn cs)).reverse)
    (p := charIn cs)).mem h
  rw [List.mem_reverse] at h2
  exact (List.dropWhile_sublist (l := l) (p := charIn cs)).mem h2

theorem replaceInvalid_not_invalid (l : List Char) (c : Char)
    (h : c ∈ replaceInvalid l) : charIn invalidChars c = false := by
  unfold replaceInvalid at h
  obtain ⟨a, _, ha⟩ := List.mem_map.mp h
  by_cases hc : charIn invalidChars a = true
  · rw [if_pos hc] at ha
    rw [← ha]
    decide
  · rw [if_neg hc] at ha
    rw [← ha]
    simpa using hc

theorem unknownChars_ok :
    ∀ c ∈ ("Unknown" : String).data, charIn invalidChars c = false := by decide

/-- C5 counterexample: the claim says the sanitizer strips the invalid
characters and maps an all-invalid input to the placeholder "Unknown"; the
code instead replaces each invalid character with an underscore, so "???"
becomes "___", not "Unknown". -/
theorem C5_all_invalid_not_placeholder :
    sanitize_filename "???" = "___" ∧ sanitize_filename "???" ≠ "Unknown" := by
  constructor
  · rfl
  · decide

/-- C5 (amended): `sanitize_filename` is a pure function that replaces each
of `<>:"/\|?*` by an underscore (so its output never contains one of them),
trims leading/trailing dots and spaces, collapses runs of spaces (no double
space survives), never returns the empty string, and returns "Unknown"
exactly when the input is empty or trims to nothing; "AC/DC: Best?" maps to
"AC_DC_ Best_" — non-empty and free of `/ : ?` — while the all-invalid
input "???" yields "___" rather than the placeholder. -/
theorem C5_sanitizer_behavior :
    (∀ s : String, sanitize_filename s ≠ "") ∧
    (∀ (s : String) (c : Char), c ∈ (sanitize_filename s).data →
      charIn invalidChars c = false) ∧
    (∀ s : String, hasDoubleSpace (sanitize_filename s).data = false) ∧
    sanitize_filename "AC/DC: Best?" = "AC_DC_ Best_" ∧
    sanitize_filename "" = "Unknown" ∧
    sanitize_filename " .. " = "Unknown" ∧
    sanitize_filename "???" = "___" := by
  refine ⟨?_, ?_, ?_, by rfl, by rfl, by rfl, by rfl⟩
  · intro s
    unfold sanitize_filename
    by_cases h0 : s = ""
    · rw [if_pos h0]
      decide
    · rw [if_neg h0]
      by_cases h1 : collapseSpaces (stripClass ['.', ' '] (replaceInvalid s.data)) = []
      · rw [if_pos h1]
        decide
      · rw [if_neg h1]
        intro hc
        apply h1
        have : (String.mk (collapseSpaces (stripClass ['.', ' ']
            (replaceInvalid s.data)))).data = ("" : String).data := by rw [hc]
        simpa using this
  · intro s c hc
    unfold sanitize_filename at hc
    by_cases h0 : s = ""
    · rw [if_pos h0] at hc
      exact unknownChars_ok c hc
    · rw [if_neg h0] at hc
      by_cases h1 : collapseSpaces (stripClass ['.', ' '] (replaceInvalid s.data)) = []
      · rw [if_pos h1] at hc
        exact unknownChars_ok c hc
      · rw [if_neg h1] at hc
        have hmem : c ∈ collapseSpaces (stripClass ['.', ' '] (replaceInvalid s.data)) := hc
        have h2 := collapseSpacesAux_mem _ _ c hmem
        have h3 := stripClass_mem _ _ c h2
        exact replaceInvalid_not_invalid _ c h3
  · intro s
    unfold sanitize_filename
    by_cases h0 : s = ""
    · rw [if_pos h0]
      decide
    · rw [if_neg h0]
      by_cases h1 : collapseSpaces (stripClass ['.', ' '] (replaceInvalid s.data)) = []
      · rw [if_pos h1]
        decide
      · rw [if_neg h1]
        show hasDoubleSpace (collapseSpaces _) = false
        exact collapseSpacesAux_noDouble _ _ le_rfl

/-! ## C6: the duplicate matcher -/

def songC6 : Song :=
  { id := "s", title := "hello", thumbnailUrl := "x", url := "u",
    artist := "dj official" }

/-- C6 counterexample: the claim says stop words are removed from the artist
tokens as well; the code removes them only from the title.  For title
"hello" by artist "dj official" and the existing file "dj - hello.mp3",
the claim's matcher (stop words removed from both sides) declares a
duplicate, but the code does not — the artist token "official" survives and
is not a substring of the candidate. -/
theorem C6_artist_stop_word_blocks_match :
    checkFileExistsClaim "hello" "dj official" ["dj - hello.mp3"] "mp3" = true ∧
    checkFileExists true songC6 ["dj - hello.mp3"] "mp3" = false ∧
    artistWords "dj official" = ["dj".data, "official".data] ∧
    claimTokens "dj official" = ["dj".data] := by
  refine ⟨by decide, by decide, by decide, by decide⟩

def songJaneC6 : Song :=
  { id := "s", title := "Hello (Official Video)", thumbnailUrl := "x", url := "u",
    artist := "Jane Doe" }

def songJane2C6 : Song :=
  { id := "s", title := "Hello", thumbnailUrl := "x", url := "u",
    artist := "Jane Doe" }

/-- C6 (amended): the matcher normalizes the target title and each candidate
filename by lowercasing, replacing the fixed punctuation set by spaces and
removing the stop-word list, while the artist is normalized WITHOUT
stop-word removal; tokens of length ≤ 1 are dropped; a duplicate is declared
iff the check is enabled, title and artist are non-empty, and some listed
file with the right extension contains every remaining title token and
every remaining artist token as substrings.  "Hello (Official Video)" by
"Jane Doe" matches "jane doe - hello.mp3"; "Hello" does not match
"jane doe - goodbye.mp3". -/
theorem C6_duplicate_matcher :
    (∀ (checkDup : Bool) (song : Song) (files : List String) (fmt : String),
      checkFileExists checkDup song files fmt = true ↔
        (checkDup = true ∧ ¬ song.title = "" ∧ ¬ song.artist = "" ∧
          ∃ f ∈ files,
            fileMatches (titleWords song.title) (artistWords song.artist)
              ('.' :: lowerChars fmt.data) f = true)) ∧
    checkFileExists true songJaneC6 ["jane doe - hello.mp3"] "mp3" = true ∧
    checkFileExists true songJane2C6 ["jane doe - goodbye.mp3"] "mp3" = false := by
  refine ⟨?_, by decide, by decide⟩
  intro checkDup song files fmt
  unfold checkFileExists
  cases checkDup
  · simp
  · by_cases ht : song.title = ""
    · simp [ht]
    · by_cases ha : song.artist = ""
      · simp [ht, ha]
      · simp [ht, ha, List.any_eq_true]

/-! ## C7 / C8: selection counting and the idempotent leaf -/

theorem entryStatus_update_keep (dm : DM) (id : String)
    (f : DownloadItem → DownloadItem) (hf : ∀ d, (f d).status = d.status) :
    entryStatus { dm with queue := qUpdate dm.queue id f } id = entryStatus dm id := by
  unfold entryStatus
  show (qLookup (qUpdate dm.queue id f) id).map _ = _
  rw [qLookup_update_self]
  cases qLookup dm.queue id <;> simp [hf]

theorem qLookup_status_update_keep (q : List (String × DownloadItem)) (id : String)
    (f : DownloadItem → DownloadItem) (hf : ∀ d, (f d).status = d.status) :
    (qLookup (qUpdate q id f) id).map DownloadItem.status =
      (qLookup q id).map DownloadItem.status := by
  rw [qLookup_update_self]
  cases qLookup q id <;> simp [hf]

theorem songCompleteEntry_not_cancelled (dm : DM) (id : String) (song : Song)
    (msg : String) (h : entryStatus dm id ≠ some .CANCELLED) :
    entryStatus (songCompleteEntry dm id song msg).1 id ≠ some .CANCELLED := by
  unfold songCompleteEntry
  cases hq : qLookup dm.queue id with
  | none => simpa using h
  | some d =>
    by_cases hty : d.item.ctypeOf = .SONG
    · simp only [hty, if_true]
      unfold entryStatus
      show ¬ (qLookup (qUpdate dm.queue id _) id).map _ = _
      rw [qLookup_update_self, hq]
      simp
    · simp only [hty, if_false]
      unfold entryStatus at h ⊢
      show ¬ (qLookup (qUpdate dm.queue id _) id).map _ = _
      rw [qLookup_status_update_keep]
      · exact h
      · intro d'
        rfl

theorem downloadSongTail_not_cancelled (dm : DM) (id : String) (song : Song)
    (fs : List String) (op : String) (dup : Bool) (fr : FetchRes)
    (h : entryStatus dm id ≠ some .CANCELLED) :
    entryStatus (downloadSongTail dm id song fs op dup fr).dm id ≠
      some .CANCELLED := by
  unfold downloadSongTail
  by_cases h1 : (dup || fs.contains op) = true
  · rw [if_pos h1]
    exact songCompleteEntry_not_cancelled dm id song _ h
  · rw [if_neg h1, if_neg h]
    cases fr with
    | cancelledMid => exact h
    | failedFetch msg => exact h
    | produced =>
      dsimp only
      by_cases h3 : qContains dm.queue id = true
      · rw [if_pos h3]
        apply songCompleteEntry_not_cancelled
        rw [entryStatus_update_status dm id .PROCESSING h3]
        simp
      · rw [if_neg h3]
        exact songCompleteEntry_not_cancelled dm id song _ h

theorem downloadSong_not_cancelled (dm : DM) (id : String) (song : Song)
    (fmt : String) (fs listing : List String) (ba : Option String) (fr : FetchRes)
    (h : entryStatus dm id ≠ some .CANCELLED) :
    entryStatus (downloadSong dm id song fmt fs listing ba fr).dm id ≠
      some .CANCELLED := by
  unfold downloadSong
  split_ifs with h1
  · exact h
  · apply downloadSongTail_not_cancelled
    unfold entryStatus at h ⊢
    show ¬ (qLookup (qUpdate (qUpdate dm.queue id _) id _) id).map _ = _
    rw [qLookup_status_update_keep, qLookup_status_update_keep]
    · exact h
    · intro d'; rfl
    · intro d'; rfl

set_option maxHeartbeats 2000000 in
theorem releaseLoop_all_submitted (id : String) (rel : Release) (fmt : String)
    (fs listing : List String) (ba : Option String) (ff : Song → FetchRes) :
    ∀ (songs : List Song) (dm : DM),
      entryStatus dm id ≠ some .CANCELLED →
      (∀ s_ ∈ songs, containsSub ("watch?v=song_".data) s_.url.data = false) →
      (releaseLoop id rel fmt fs listing ba ff dm songs).submitted = songs ∧
      (releaseLoop id rel fmt fs listing ba ff dm songs).cancelled = false := by
  intro songs
  induction songs with
  | nil => intro dm _ _; exact ⟨rfl, rfl⟩
  | cons s rest ih =>
    intro dm h hurl
    have hs : containsSub ("watch?v=song_".data) s.url.data = false :=
      hurl s (List.mem_cons_self s rest)
    have hurl' : ∀ s_ ∈ rest, containsSub ("watch?v=song_".data) s_.url.data = false :=
      fun s_ hm => hurl s_ (List.mem_cons_of_mem s hm)
    rw [releaseLoop, if_neg h]
    simp only [hs, Bool.false_and, Bool.false_eq_true, if_false]
    set sf : Song := { s with
      artist := if s.artist = "" then rel.artist else s.artist,
      album := if s.album = "" then rel.title else s.album,
      year := if s.year = "" then rel.year else s.year } with hsf
    cases hq : qLookup dm.queue id with
    | none =>
      simp only [hq]
      have hsr := downloadSong_not_cancelled dm id sf fmt fs listing ba (ff sf) h
      obtain ⟨ih1, ih2⟩ := ih (downloadSong dm id sf fmt fs listing ba (ff sf)).dm hsr hurl'
      cases herr : (downloadSong dm id sf fmt fs listing ba (ff sf)).err with
      | none =>
        simp only [herr]
        exact ⟨by rw [ih1], ih2⟩
      | some e =>
        simp only [herr]
        exact ⟨by rw [ih1], ih2⟩
    | some d =>
      simp only [hq]
      set dmStep : DM := { dm with queue := qUpdate dm.queue id (fun d' => { d' with currentSong := some sf }) } with hdmStep
      have hstep : entryStatus dmStep id ≠ some .CANCELLED := by
        rw [hdmStep]
        unfold entryStatus at h ⊢
        show ¬ (qLookup (qUpdate dm.queue id _) id).map _ = _
        rw [qLookup_status_update_keep]
        · exact h
        · intro d'; rfl
      have hsr := downloadSong_not_cancelled dmStep id sf fmt fs listing ba (ff sf) hstep
      obtain ⟨ih1, ih2⟩ := ih (downloadSong dmStep id sf fmt fs listing ba (ff sf)).dm hsr hurl'
      cases herr : (downloadSong dmStep id sf fmt fs listing ba (ff sf)).err with
      | none =>
        simp only [herr]
        exact ⟨by rw [ih1], ih2⟩
      | some e =>
        simp only [herr]
        exact ⟨by rw [ih1], ih2⟩

theorem downloadRelease_submitted (dm : DM) (id : String) (rel : Release) (fmt : String)
    (rr : Release → Except String (Option (List Song × String)))
    (fs listing : List String) (ba : Option String) (ff : Song → FetchRes)
    (h : entryStatus dm id ≠ some .CANCELLED)
    (hsongs : ¬ rel.songs.isEmpty = true)
    (hurl : ∀ s_ ∈ rel.songs, containsSub ("watch?v=song_".data) s_.url.data = false) :
    (downloadRelease dm id rel fmt rr fs listing ba ff).submitted =
      (if (rel.songs.filter (fun s => s.selected)).isEmpty then rel.songs
       else rel.songs.filter (fun s => s.selected)) := by
  unfold downloadRelease
  dsimp only
  rw [if_neg hsongs]
  split
  · rename_i e heq
    exact absurd heq (by simp)
  · rename_i dm2 rel2 heq
    have hpair : (({ dm with queue := qUpdate dm.queue id (fun d => { d with outputPath := pathJoin (pathJoin dm.settings.downloadDir (sanitize_filename rel.artist)) (sanitize_filename rel.title) }) } : DM), rel) = (dm2, rel2) := by
      injection heq
    obtain ⟨hdm2, hrel2⟩ := Prod.mk.injEq _ _ _ _ |>.mp hpair
    subst hdm2
    subst hrel2
    rw [if_neg hsongs]
    have h1 : entryStatus ({ dm with queue := qUpdate dm.queue id (fun d => { d with outputPath := pathJoin (pathJoin dm.settings.downloadDir (sanitize_filename rel.artist)) (sanitize_filename rel.title) }) } : DM) id ≠ some .CANCELLED := by
      unfold entryStatus at h ⊢
      show ¬ (qLookup (qUpdate dm.queue id _) id).map _ = _
      rw [qLookup_status_update_keep]
      · exact h
      · intro d'; rfl
    set sel : List Song := if (rel.songs.filter (fun s => s.selected)).isEmpty then rel.songs
      else rel.songs.filter (fun s => s.selected) with hsel
    have hurlsel : ∀ s_ ∈ sel, containsSub ("watch?v=song_".data) s_.url.data = false := by
      intro s_ hm
      apply hurl
      rw [hsel] at hm
      by_cases hf : (rel.songs.filter (fun s => s.selected)).isEmpty = true
      · rw [if_pos hf] at hm
        exact hm
      · rw [if_neg hf] at hm
        exact List.mem_of_mem_filter hm
    obtain ⟨hsub, hcanc⟩ := releaseLoop_all_submitted id rel fmt fs listing ba ff sel _ h1 hurlsel
    rw [hcanc, if_neg (fun hc => Bool.false_ne_true hc)]
    exact hsub

def dmEmptyW : DM := {}

def relUnselC7 : Release :=
  { id := "ru", title := "RU", thumbnailUrl := "x", url := "u", artist := "AA",
    songs := [{ songW with selected := false },
      { id := "s2", title := "T2", thumbnailUrl := "x", url := "https://e/2",
        artist := "A2", selected := false }] }

/-- C7 counterexample: the claim says `total_songs` equals the number of
songs with `selected == true`; enqueueing a release whose two songs are both
deselected yields `total_songs = 2` (the code falls back to all songs),
while the number of selected songs is 0. -/
theorem C7_all_deselected_counts_all :
    (qLookup (addToQueue dmEmptyW (.release .RELEASE relUnselC7) none none 0).1.queue
        (addToQueue dmEmptyW (.release .RELEASE relUnselC7) none none 0).2.1).map
      DownloadItem.totalSongs = some 2 ∧
    (relUnselC7.songs.filter (fun s => s.selected)).length = 0 ∧
    ¬ (2 = 0) := by
  refine ⟨by decide, by decide, by decide⟩

def rel10C7 : Release :=
  { id := "r10", title := "R10", thumbnailUrl := "x", url := "u", artist := "AA",
    songs := (List.range 10).map (fun i =>
      { id := toString i, title := toString i, thumbnailUrl := "x", url := "https://e/x",
        artist := "AA", selected := decide (i < 7) }) }

/-- C7 (amended): enqueueing a Song yields `total_songs = 1`; enqueueing a
Release with populated songs yields `total_songs` equal to the number of
selected songs when at least one is selected, and to the total number of
songs otherwise (the code's fallback); ten songs with three deselected give
`total_songs = 7`; and the release download submits exactly the selected
songs (falling back to all when none is selected), given resolvable URLs
and no cancellation. -/
theorem C7_selection_counting :
    (∀ (dm : DM) (s : Song) (fa qa : Option String) (ts : Nat),
      (qLookup (addToQueue dm (.song s) fa qa ts).1.queue
          (addToQueue dm (.song s) fa qa ts).2.1).map DownloadItem.totalSongs =
        some 1) ∧
    (∀ (dm : DM) (ct : ContentType) (r : Release) (fa qa : Option String) (ts : Nat),
      (ct = .ALBUM ∨ ct = .RELEASE ∨ ct = .SINGLE) →
      ¬ r.songs.isEmpty = true →
      (qLookup (addToQueue dm (.release ct r) fa qa ts).1.queue
          (addToQueue dm (.release ct r) fa qa ts).2.1).map DownloadItem.totalSongs =
        some (if (r.songs.filter (fun s => s.selected)).isEmpty then r.songs.length
          else (r.songs.filter (fun s => s.selected)).length)) ∧
    ((qLookup (addToQueue dmEmptyW (.release .RELEASE rel10C7) none none 0).1.queue
        (addToQueue dmEmptyW (.release .RELEASE rel10C7) none none 0).2.1).map
      DownloadItem.totalSongs = some 7) ∧
    (∀ (dm : DM) (id : String) (rel : Release) (fmt : String)
        (rr : Release → Except String (Option (List Song × String)))
        (fs listing : List String) (ba : Option String) (ff : Song → FetchRes),
      entryStatus dm id ≠ some .CANCELLED →
      ¬ rel.songs.isEmpty = true →
      (∀ s_ ∈ rel.songs, containsSub ("watch?v=song_".data) s_.url.data = false) →
      (downloadRelease dm id rel fmt rr fs listing ba ff).submitted =
        (if (rel.songs.filter (fun s => s.selected)).isEmpty then rel.songs
        else rel.songs.filter (fun s => s.selected))) := by
  refine ⟨?_, ?_, by decide, downloadRelease_submitted⟩
  · intro dm s fa qa ts
    unfold addToQueue
    dsimp only
    rw [qLookup_assign_self]
    rfl
  · intro dm ct r fa qa ts hct hs
    unfold addToQueue
    dsimp only
    rw [qLookup_assign_self]
    have hcond : ((ct = ContentType.ALBUM || ct = ContentType.RELEASE ||
        ct = ContentType.SINGLE) && !r.songs.isEmpty) = true := by
      rcases hct with h1 | h1 | h1 <;> subst h1 <;> simp_all
    rw [if_pos hcond]
    by_cases hf : (r.songs.filter (fun s => s.selected)).isEmpty = true
    · rw [if_pos hf]
      rfl
    · rw [if_neg hf]
      rfl

def relMixC7 : Release :=
  { id := "rm", title := "RM", thumbnailUrl := "x", url := "u", artist := "AA",
    songs := [songW,
      { id := "s2", title := "T2", thumbnailUrl := "x", url := "https://e/2",
        artist := "A2", selected := false }] }

def dmRelC7 : DM :=
  { queue := [("R", { item := .release .RELEASE relMixC7, status := .DOWNLOADING, totalSongs := 1 })],
    active := ["R"], settings := setW }

/-- C7 witness: the selection rules applied at concrete inputs. -/
theorem C7_selection_counting_witness :
    (¬ rel10C7.songs.isEmpty = true) ∧
    ((qLookup (addToQueue dmEmptyW (.release .ALBUM rel10C7) none none 1).1.queue
        (addToQueue dmEmptyW (.release .ALBUM rel10C7) none none 1).2.1).map
      DownloadItem.totalSongs =
      some (if (rel10C7.songs.filter (fun s => s.selected)).isEmpty then
          rel10C7.songs.length
        else (rel10C7.songs.filter (fun s => s.selected)).length)) ∧
    ((downloadRelease dmRelC7 "R" relMixC7 "mp3" (fun _ => .error "x") [] [] none
        (fun _ => .produced)).submitted =
      (if (relMixC7.songs.filter (fun s => s.selected)).isEmpty then relMixC7.songs
        else relMixC7.songs.filter (fun s => s.selected))) :=
  ⟨by decide,
    C7_selection_counting.2.1 dmEmptyW .ALBUM rel10C7 none none 1
      (Or.inl rfl) (by decide),
    C7_selection_counting.2.2.2 dmRelC7 "R" relMixC7 "mp3" (fun _ => .error "x")
      [] [] none (fun _ => .produced)
      (by rw [show entryStatus dmRelC7 "R" = some DownloadStatus.DOWNLOADING from rfl]; decide)
      (by decide) (by decide)⟩

theorem qLookup_map_update (q : List (String × DownloadItem)) (id : String)
    (f : DownloadItem → DownloadItem) (g : DownloadItem → α)
    (hfg : ∀ d, g (f d) = g d) :
    (qLookup (qUpdate q id f) id).map g = (qLookup q id).map g := by
  rw [qLookup_update_self]
  cases qLookup q id <;> simp [hfg]

theorem songUrlFixed_id (song : Song)
    (h : (song.url = "" || containsSub ("watch?v=song_".data) song.url.data) = false) :
    songUrlFixed song = song := by
  unfold songUrlFixed
  rw [if_neg (by rw [h]; exact Bool.false_ne_true)]

theorem songThumbFixed_path (st : Settings) (ba : Option String) (song : Song)
    (fmt : String) :
    songOutputPath st (songThumbFixed ba song) fmt = songOutputPath st song fmt := by
  unfold songThumbFixed
  split_ifs with h1
  · cases ba with
    | none => rfl
    | some b =>
      dsimp only
      split_ifs with h2 <;> rfl
  · rfl

theorem songThumbFixed_title (ba : Option String) (song : Song) :
    (songThumbFixed ba song).title = song.title := by
  unfold songThumbFixed
  split_ifs with h1
  · cases ba with
    | none => rfl
    | some b =>
      dsimp only
      split_ifs with h2 <;> rfl
  · rfl

theorem songUrlFixed_fields (song : Song) :
    (songUrlFixed song).title = song.title ∧
    (songUrlFixed song).artist = song.artist ∧
    (songUrlFixed song).album = song.album ∧
    (songUrlFixed song).trackNumber = song.trackNumber := by
  unfold songUrlFixed
  split_ifs <;> exact ⟨rfl, rfl, rfl, rfl⟩

theorem songThumbFixed_artist (ba : Option String) (song : Song) :
    (songThumbFixed ba song).artist = song.artist := by
  unfold songThumbFixed
  split_ifs with h1
  · cases ba with
    | none => rfl
    | some b =>
      dsimp only
      split_ifs with h2 <;> rfl
  · rfl

theorem songOutputPath_congr (st : Settings) (s1 s2 : Song) (fmt : String)
    (ht : s1.title = s2.title) (ha : s1.artist = s2.artist)
    (hal : s1.album = s2.album) (htr : s1.trackNumber = s2.trackNumber) :
    songOutputPath st s1 fmt = songOutputPath st s2 fmt := by
  unfold songOutputPath songOutputDir
  simp only [ht, ha, hal, htr]

theorem checkFileExists_congr (cd : Bool) (s1 s2 : Song) (files : List String)
    (fmt : String) (ht : s1.title = s2.title) (ha : s1.artist = s2.artist) :
    checkFileExists cd s1 files fmt = checkFileExists cd s2 files fmt := by
  unfold checkFileExists
  simp only [ht, ha]

theorem songFix_path (st : Settings) (ba : Option String) (song : Song)
    (fmt : String) :
    songOutputPath st (songThumbFixed ba (songUrlFixed song)) fmt =
      songOutputPath st song fmt := by
  rw [songThumbFixed_path]
  exact songOutputPath_congr st _ _ fmt (songUrlFixed_fields song).1
    (songUrlFixed_fields song).2.1 (songUrlFixed_fields song).2.2.1
    (songUrlFixed_fields song).2.2.2

theorem songFix_title (ba : Option String) (song : Song) :
    (songThumbFixed ba (songUrlFixed song)).title = song.title := by
  rw [songThumbFixed_title]
  exact (songUrlFixed_fields song).1

theorem songFix_dup (cd : Bool) (ba : Option String) (song : Song)
    (files : List String) (fmt : String) :
    checkFileExists cd (songThumbFixed ba (songUrlFixed song)) files fmt =
      checkFileExists cd song files fmt :=
  checkFileExists_congr cd _ _ files fmt
    (by rw [songThumbFixed_title]; exact (songUrlFixed_fields song).1)
    (by rw [songThumbFixed_artist]; exact (songUrlFixed_fields song).2.1)

theorem downloadSongTail_skip (dm : DM) (id : String) (song : Song)
    (fs : List String) (op : String) (dup : Bool) (fr : FetchRes)
    (hex : (dup || fs.contains op) = true) :
    downloadSongTail dm id song fs op dup fr =
      ⟨(songCompleteEntry dm id song "Already exists: ").1,
        (songCompleteEntry dm id song "Already exists: ").2, some op, false, none⟩ := by
  unfold downloadSongTail
  rw [if_pos hex]

theorem songCompleteEntry_counters (dm : DM) (id : String) (song : Song)
    (msg : String) :
    (qLookup (songCompleteEntry dm id song msg).1.queue id).map
        DownloadItem.completedSongs =
      (qLookup dm.queue id).map (fun d => d.completedSongs + 1) := by
  unfold songCompleteEntry
  cases hq : qLookup dm.queue id with
  | none => simp [hq]
  | some d =>
    by_cases hty : d.item.ctypeOf = .SONG
    · simp only [hq, hty, if_true]
      show (qLookup (qUpdate dm.queue id _) id).map _ = _
      rw [qLookup_update_self, hq]
      rfl
    · simp only [hq, hty, if_false]
      show (qLookup (qUpdate dm.queue id _) id).map _ = _
      rw [qLookup_update_self, hq]
      rfl

theorem songCompleteEntry_song_type (dm : DM) (id : String) (song : Song)
    (msg : String) (d : DownloadItem) (hq : qLookup dm.queue id = some d)
    (hty : d.item.ctypeOf = .SONG) :
    entryStatus (songCompleteEntry dm id song msg).1 id = some .COMPLETED ∧
    (songCompleteEntry dm id song msg).2 =
      [Event.statusChanged id .COMPLETED "",
        Event.progress id 100 (msg ++ song.title)] := by
  unfold songCompleteEntry
  simp only [hq, hty, if_true]
  constructor
  · unfold entryStatus
    show (qLookup (qUpdate dm.queue id _) id).map _ = _
    rw [qLookup_update_self, hq]
    rfl
  · trivial

theorem downloadSong_skip (dm : DM) (id : String) (song : Song) (fmt : String)
    (fs listing : List String) (ba : Option String) (fr : FetchRes)
    (hval : ((song.url = "" || containsSub ("watch?v=song_".data) song.url.data) && song.videoId = "") = false)
    (hskip : ((if dm.settings.checkDuplicates then checkFileExists dm.settings.checkDuplicates song listing fmt else false) || fs.contains (songOutputPath dm.settings song fmt)) = true) :
    downloadSong dm id song fmt fs listing ba fr =
      ⟨(songCompleteEntry ({ dm with queue := qUpdate (qUpdate dm.queue id (fun d => { d with currentSong := some (songThumbFixed ba (songUrlFixed song)) })) id (fun d => { d with outputPath := songOutputPath dm.settings (songThumbFixed ba (songUrlFixed song)) fmt }) } : DM) id (songThumbFixed ba (songUrlFixed song)) "Already exists: ").1,
        (songCompleteEntry ({ dm with queue := qUpdate (qUpdate dm.queue id (fun d => { d with currentSong := some (songThumbFixed ba (songUrlFixed song)) })) id (fun d => { d with outputPath := songOutputPath dm.settings (songThumbFixed ba (songUrlFixed song)) fmt }) } : DM) id (songThumbFixed ba (songUrlFixed song)) "Already exists: ").2,
        some (songOutputPath dm.settings (songThumbFixed ba (songUrlFixed song)) fmt), false, none⟩ := by
  unfold downloadSong
  rw [if_neg (show ¬ ((song.url = "" || containsSub ("watch?v=song_".data) song.url.data) && song.videoId = "") = true by rw [hval]; exact Bool.false_ne_true)]
  dsimp only
  rw [downloadSongTail_skip]
  rw [songFix_dup, songFix_path]
  exact hskip

def dmTwiceC8 : DM :=
  { queue := [("d1", entrySongW), ("d2", entrySongW)], active := ["d1", "d2"],
    settings := setW }

def fsC8 : List String := ["D/Singles/A1 - T1.mp3"]

/-- A song whose stored URL is empty but whose `video_id` lets the
validation step repair it. -/
def repairSongC8 : Song :=
  { id := "r8", title := "T9", thumbnailUrl := "x", url := "", artist := "A9",
    videoId := "vid9" }

def dmRepC8 : DM :=
  { queue := [("S", { item := .song repairSongC8, status := .DOWNLOADING })],
    active := ["S"], settings := setW }

def fsRepC8 : List String := ["D/Singles/A9 - T9.mp3"]

def setDupC8 : Settings :=
  { useAlbumFolders := false, autoRename := true, checkDuplicates := true,
    downloadDir := "D" }

/-- A song whose exact output path is absent from the filesystem but whose
duplicate check matches an existing file of the directory listing. -/
def dupSongC8 : Song :=
  { id := "d8", title := "Hello", thumbnailUrl := "x", url := "https://e/h",
    artist := "Jane Doe" }

def dmDupC8 : DM :=
  { queue := [("S", { item := .song dupSongC8, status := .DOWNLOADING })],
    active := ["S"], settings := setDupC8 }

def listingDupC8 : List String := ["jane doe - hello.mp3"]

/-- C8 (amended): for every Song that passes the source-URL validation — a
usable URL, or one repaired from `video_id` — and whose skip condition
holds (the duplicate check matches, or the target output path already
exists on disk), `_download_song` short-circuits: the external fetcher is
never invoked, no exception is raised, the output path is returned,
`completed_songs` is incremented, and a single-track entry becomes
COMPLETED with the "Already exists" progress event.  The video-id repair
branch and the duplicate-match branch are exercised concretely: a song
with an empty URL but a video id completes against an existing file, and a
song whose output path is absent completes via the duplicate match. -/
theorem C8_short_circuit :
    (∀ (dm : DM) (id : String) (song : Song) (fmt : String)
      (fs listing : List String) (ba : Option String) (fr : FetchRes),
      ((song.url = "" || containsSub ("watch?v=song_".data) song.url.data) &&
        song.videoId = "") = false →
      ((if dm.settings.checkDuplicates then
          checkFileExists dm.settings.checkDuplicates song listing fmt
        else false) ||
        fs.contains (songOutputPath dm.settings song fmt)) = true →
      (downloadSong dm id song fmt fs listing ba fr).fetched = false ∧
      (downloadSong dm id song fmt fs listing ba fr).err = none ∧
      (downloadSong dm id song fmt fs listing ba fr).result =
        some (songOutputPath dm.settings song fmt) ∧
      (qLookup (downloadSong dm id song fmt fs listing ba fr).dm.queue id).map
          DownloadItem.completedSongs =
        (qLookup dm.queue id).map (fun d => d.completedSongs + 1) ∧
      (∀ d, qLookup dm.queue id = some d → d.item.ctypeOf = .SONG →
        entryStatus (downloadSong dm id song fmt fs listing ba fr).dm id =
          some .COMPLETED ∧
        (downloadSong dm id song fmt fs listing ba fr).events =
          [Event.statusChanged id .COMPLETED "",
            Event.progress id 100 ("Already exists: " ++ song.title)])) ∧
    (repairSongC8.url = "" ∧ ¬ repairSongC8.videoId = "" ∧
      fsRepC8.contains (songOutputPath dmRepC8.settings repairSongC8 "mp3") = true ∧
      (downloadSong dmRepC8 "S" repairSongC8 "mp3" fsRepC8 [] none .produced).fetched = false ∧
      (downloadSong dmRepC8 "S" repairSongC8 "mp3" fsRepC8 [] none .produced).result =
        some "D/Singles/A9 - T9.mp3" ∧
      entryStatus (downloadSong dmRepC8 "S" repairSongC8 "mp3" fsRepC8 [] none .produced).dm
        "S" = some .COMPLETED ∧
      (qLookup (downloadSong dmRepC8 "S" repairSongC8 "mp3" fsRepC8 [] none .produced).dm.queue
        "S").map DownloadItem.completedSongs = some 1) ∧
    (List.contains ([] : List String)
        (songOutputPath dmDupC8.settings dupSongC8 "mp3") = false ∧
      checkFileExists dmDupC8.settings.checkDuplicates dupSongC8 listingDupC8 "mp3" = true ∧
      (downloadSong dmDupC8 "S" dupSongC8 "mp3" [] listingDupC8 none .produced).fetched = false ∧
      entryStatus (downloadSong dmDupC8 "S" dupSongC8 "mp3" [] listingDupC8 none .produced).dm
        "S" = some .COMPLETED ∧
      (qLookup (downloadSong dmDupC8 "S" dupSongC8 "mp3" [] listingDupC8 none .produced).dm.queue
        "S").map DownloadItem.completedSongs = some 1) := by
  refine ⟨?_, ?_, ?_⟩
  · intro dm id song fmt fs listing ba fr hval hskip
    rw [downloadSong_skip dm id song fmt fs listing ba fr hval hskip]
    refine ⟨rfl, rfl, by rw [songFix_path], ?_, ?_⟩
    · show (qLookup (songCompleteEntry _ id _ _).1.queue id).map _ = _
      rw [songCompleteEntry_counters]
      show (qLookup (qUpdate (qUpdate dm.queue id _) id _) id).map _ = _
      rw [qLookup_map_update, qLookup_map_update]
      · intro d; rfl
      · intro d; rfl
    · intro d hq hty
      have hq2 : qLookup (qUpdate (qUpdate dm.queue id
          (fun d => { d with currentSong := some (songThumbFixed ba (songUrlFixed song)) })) id
          (fun d => { d with outputPath := songOutputPath dm.settings (songThumbFixed ba (songUrlFixed song)) fmt })) id =
          some { { d with currentSong := some (songThumbFixed ba (songUrlFixed song)) } with
            outputPath := songOutputPath dm.settings (songThumbFixed ba (songUrlFixed song)) fmt } := by
        rw [qLookup_update_self, qLookup_update_self, hq]
        rfl
      obtain ⟨h1, h2⟩ := songCompleteEntry_song_type
        ({ dm with queue := qUpdate (qUpdate dm.queue id (fun d => { d with currentSong := some (songThumbFixed ba (songUrlFixed song)) })) id (fun d => { d with outputPath := songOutputPath dm.settings (songThumbFixed ba (songUrlFixed song)) fmt }) } : DM)
        id (songThumbFixed ba (songUrlFixed song)) "Already exists: "
        ({ { d with currentSong := some (songThumbFixed ba (songUrlFixed song)) } with outputPath := songOutputPath dm.settings (songThumbFixed ba (songUrlFixed song)) fmt })
        hq2 hty
      refine ⟨h1, ?_⟩
      rw [h2, songFix_title]
  · refine ⟨by decide, by decide, by decide, by decide, by decide, by decide, by decide⟩
  · refine ⟨by decide, by decide, by decide, by decide, by decide⟩

def badSongC8 : Song :=
  { id := "b", title := "B", thumbnailUrl := "x", url := "", artist := "A1",
    videoId := "" }

def dmBadC8 : DM :=
  { queue := [("S", { item := .song badSongC8, status := .DOWNLOADING })],
    active := ["S"], settings := setW }

def fsBadC8 : List String := ["D/Singles/A1 - B.mp3"]

/-- C8 counterexample: the claim quantifies over every Song whose output
path exists; but URL validation runs before the existence check, so a Song
with an empty URL and no video id raises "Invalid YouTube URL" and leaves
`completed_songs` untouched even though its output file exists. -/
theorem C8_invalid_url_fails_despite_existing_file :
    fsBadC8.contains (songOutputPath dmBadC8.settings badSongC8 "mp3") = true ∧
    (downloadSong dmBadC8 "S" badSongC8 "mp3" fsBadC8 [] none .produced).err =
      some "Invalid YouTube URL for B" ∧
    (downloadSong dmBadC8 "S" badSongC8 "mp3" fsBadC8 [] none .produced).result = none ∧
    (downloadSong dmBadC8 "S" badSongC8 "mp3" fsBadC8 [] none .produced).fetched = false ∧
    (qLookup (downloadSong dmBadC8 "S" badSongC8 "mp3" fsBadC8 [] none .produced).dm.queue
      "S").map DownloadItem.completedSongs = some 0 ∧
    entryStatus (downloadSong dmBadC8 "S" badSongC8 "mp3" fsBadC8 [] none .produced).dm
      "S" = some .DOWNLOADING := by
  refine ⟨by decide, by decide, by decide, by decide, by decide, by decide⟩

/-- C8 witness: two queued entries for the same song with the file on
disk; both runs short-circuit to COMPLETED without fetching. -/
theorem C8_short_circuit_witness :
    (((songW.url = "" || containsSub ("watch?v=song_".data) songW.url.data) &&
      songW.videoId = "") = false) ∧
    (fsC8.contains (songOutputPath dmTwiceC8.settings songW "mp3") = true) ∧
    (downloadSong dmTwiceC8 "d1" songW "mp3" fsC8 [] none .produced).fetched = false ∧
    entryStatus (downloadSong dmTwiceC8 "d1" songW "mp3" fsC8 [] none .produced).dm "d1" =
      some .COMPLETED ∧
    (downloadSong (downloadSong dmTwiceC8 "d1" songW "mp3" fsC8 [] none .produced).dm
      "d2" songW "mp3" fsC8 [] none .produced).fetched = false ∧
    entryStatus (downloadSong (downloadSong dmTwiceC8 "d1" songW "mp3" fsC8 [] none
      .produced).dm "d2" songW "mp3" fsC8 [] none .produced).dm "d2" = some .COMPLETED :=
  ⟨by decide, by decide,
    (C8_short_circuit.1 dmTwiceC8 "d1" songW "mp3" fsC8 [] none .produced (by decide)
      (by decide)).1,
    ((C8_short_circuit.1 dmTwiceC8 "d1" songW "mp3" fsC8 [] none .produced (by decide)
      (by decide)).2.2.2.2 entrySongW (by decide) (by decide)).1,
    (C8_short_circuit.1 (downloadSong dmTwiceC8 "d1" songW "mp3" fsC8 [] none .produced).dm
      "d2" songW "mp3" fsC8 [] none .produced (by decide) (by decide)).1,
    ((C8_short_circuit.1 (downloadSong dmTwiceC8 "d1" songW "mp3" fsC8 [] none .produced).dm
      "d2" songW "mp3" fsC8 [] none .produced (by decide) (by decide)).2.2.2.2
      entrySongW (by decide) (by decide)).1⟩

/-! ## C1: the counter invariant and the artist flow -/

def s2C1 : Song :=
  { id := "s2", title := "T2", thumbnailUrl := "x", url := "https://e/2",
    artist := "A2" }

def relPopC1 : Release :=
  { id := "r1", title := "R1", thumbnailUrl := "x", url := "ur1", artist := "AA",
    songs := [songW] }

def relEmptyC1 : Release :=
  { id := "r2", title := "R2", thumbnailUrl := "x", url := "ur2", artist := "AA" }

def artC1 : Artist :=
  { id := "a", title := "AA", thumbnailUrl := "x", url := "ua",
    releases := [relPopC1, relEmptyC1] }

def dmC1 : DM :=
  { queue := [("A", { item := .artist artC1, status := .DOWNLOADING, totalSongs := 2 })],
    active := ["A"], settings := setW }

def fsC1 : List String := ["D/Singles/A1 - T1.mp3", "D/Singles/A2 - T2.mp3"]

def resolveRelC1 (r : Release) : Except String (Option (List Song × String)) :=
  if r.id = "r2" then .ok (some ([s2C1], "2020")) else .error "unused"

/-- C1: the artist flow violates the counter invariant.  An artist entry
starts with `total_songs = 2` (one known song in R1 plus the 1-song floor
for unresolved R2); during the artist download `_download_release`
re-resolves R2 and overwrites the artist entry's `total_songs` with just
R2's song count (1), after which the second completed leaf drives
`completed_songs` to 2 > `total_songs` = 1. -/
theorem C1_artist_flow_breaks_counter_invariant :
    (qLookup (downloadArtist dmC1 "A" artC1 "mp3" (.error "unused") resolveRelC1
        fsC1 [] none (fun _ => .produced)).dm.queue "A").map
      (fun d => (d.completedSongs, d.totalSongs, d.status)) =
      some (2, 1, .COMPLETED) ∧
    ¬ (2 ≤ 1) := by
  refine ⟨by decide, by decide⟩

end MP3Me
